import Mathlib

/-! The dynamic bind / unbind / invoke bridge of `os_call_wrapper.c`.

A shallow embedding of `src/os_call_wrapper.c`.  Host pointers and guest
offsets are natural numbers, `0` is `NULL`.  Heap blocks obtained from
`wasm_runtime_malloc` live in address-indexed tables of the state; reading a
block that is not live (never allocated, or freed) is undefined behaviour and
is reported as a `Fault`.
-/

namespace OsCallWrapper

/-- The constant `UINT32_MAX`. -/
def UINT32_MAX : Nat := 4294967295

/-- The cast `(uint32) x`. -/
def u32 (x : Nat) : Nat := x % 2 ^ 32

/-- The cast `(uint64) x`. -/
def u64 (x : Nat) : Nat := x % 2 ^ 64

/-- The size rounding `_INTSIZEOF(n)`: `((uint32)sizeof(n) + 3) & (uint32)~3`, given `sizeof(n)`. -/
def _INTSIZEOF (sizeof_n : Nat) : Nat := Nat.land (u32 (sizeof_n + 3)) (2 ^ 32 - 1 - 3)

/-- The value of `sizeof(int32)`. -/
def sizeof_int32 : Nat := 4

/-- Function `wwrap_hash`: the low 32 bits of the key. -/
def wwrap_hash (key : Nat) : Nat := u32 key

/-- Function `wwrap_equal`: keys are equal when their low 32 bits are. -/
def wwrap_equal (key1 key2 : Nat) : Bool := u32 key1 == u32 key2

/-- Modelled from the spec: the `HashMap` behind `bh_hash_map_*` (declared in
`bh_common.h`, not part of the source file), as a mapping with unique keys;
an association list from key to value pointer, compared with `wwrap_equal`. -/
abbrev HashMap := List (Nat × Nat)

/-- Modelled from the spec: `bh_hash_map_find`, the value stored under `key`, `NULL` when absent. -/
def bh_hash_map_find : HashMap → Nat → Nat
  | [], _ => 0
  | (k, v) :: rest, key => if wwrap_equal k key then v else bh_hash_map_find rest key

/-- Whether some entry of the map has a key equal to `key`. -/
def bh_hash_map_has : HashMap → Nat → Bool
  | [], _ => false
  | (k, _) :: rest, key => wwrap_equal k key || bh_hash_map_has rest key

/-- Modelled from the spec: `bh_hash_map_insert`; keys stay unique, so an
insertion under a key already present is refused and leaves the map as it was. -/
def bh_hash_map_insert (map : HashMap) (key value : Nat) : HashMap :=
  if bh_hash_map_has map key then map else (key, value) :: map

/-- Modelled from the spec: `bh_hash_map_remove`, dropping the entry stored under `key`. -/
def bh_hash_map_remove : HashMap → Nat → HashMap
  | [], _ => []
  | (k, v) :: rest, key =>
    if wwrap_equal k key then rest else (k, v) :: bh_hash_map_remove rest key

/-- Modelled from the spec: `bh_hash_map_get_count`, the number of entries. -/
def bh_hash_map_get_count (map : HashMap) : Nat := map.length

/-- A table of live heap blocks, by address. -/
abbrev Heap (α : Type) := List (Nat × α)

/-- The live block at address `p`, if any. -/
def Heap.read {α : Type} : Heap α → Nat → Option α
  | [], _ => none
  | (q, v) :: rest, p => if q = p then some v else Heap.read rest p

/-- Release the block at address `p` (`wasm_runtime_free`). -/
def Heap.release {α : Type} : Heap α → Nat → Heap α
  | [], _ => []
  | (q, v) :: rest, p => if q = p then Heap.release rest p else (q, v) :: Heap.release rest p

/-- Store `v` in the block at address `p`. -/
def Heap.write {α : Type} (h : Heap α) (p : Nat) (v : α) : Heap α :=
  (p, v) :: Heap.release h p

/-- The struct `module_node`; `functions = none` is the `NULL` map pointer. -/
structure module_node where
  functions : Option HashMap
  base : Nat
deriving DecidableEq

/-- The struct `function_node`; `parameters` is the array `uint32 parameters[16]`. -/
structure function_node where
  m_node : Nat
  func : Nat
  parameters : List Nat
  parameter_count : Nat
deriving DecidableEq

/-- The process state the bridge reads and writes: the static `g_modules`
(`none` while it is `NULL`), the live `module_node` and `function_node`
blocks, the guest exception state, and the handles passed to `FreeLibrary`
(most recent first). -/
structure State where
  g_modules : Option HashMap
  module_nodes : Heap module_node
  function_nodes : Heap function_node
  exception : Option String
  unloaded : List Nat
deriving DecidableEq

/-- The state at process start: `g_modules` is `NULL`, nothing allocated. -/
def State.init : State :=
  { g_modules := none, module_nodes := [], function_nodes := [], exception := none, unloaded := [] }

/-- Undefined behaviour of the C program. -/
inductive Fault where
  | invalid_pointer (p : Nat)
  | out_of_bounds_write (index : Nat)
deriving DecidableEq

/-- The result of running a wrapper: the returned value and the new state, or undefined behaviour. -/
inductive Outcome (α : Type) where
  | ok (ret : α) (s : State)
  | undefined (why : Fault)
deriving DecidableEq

/-- The collaborators of one call: the guest linear memory as the native
address range from `mem_start` up to `mem_end`, its 32-bit words, the host
loader, and the native functions by address. -/
structure Env where
  mem_start : Nat
  mem_end : Nat
  read32 : Nat → Nat
  GetModuleHandleA : Nat → Nat
  LoadLibraryA : Nat → Nat
  GetProcAddress : Nat → Nat → Nat
  call_native : Nat → List Nat → Nat

/-- The bounds test of the Address Translator: the `size` bytes at the native
address `addr` lie inside guest memory. -/
def native_addr_in_bounds (env : Env) (addr size : Nat) : Bool :=
  decide (env.mem_start ≤ addr ∧ addr + size ≤ env.mem_end)

/-- Modelled from the spec: the Address Translator primitive
`bounds-validate(pointer, size) -> bool` behind the source's
`validate_native_addr` (`wasm_runtime_validate_native_addr`, which takes the
module instance and is not part of the source file).  By the spec's error
design a failed bounds validation is `InvalidGuestAddress`, "always paired
with setting the guest's observable exception state", with the message
"out of bounds memory access"; the source relies on it, returning without a
`wasm_runtime_set_exception` of its own after every failed
`validate_native_addr` (lines 149, 273 and 321). -/
def validate_native_addr (env : Env) (s : State) (addr size : Nat) : Bool × State :=
  if native_addr_in_bounds env addr size then (true, s)
  else (false, { s with exception := some "out of bounds memory access" })

/-- Modelled from the spec: `get-native-address-range(pointer) -> (start, end)`
behind `wasm_runtime_get_native_addr_range`; the end address when `addr` lies in guest memory. -/
def wasm_runtime_get_native_addr_range (env : Env) (addr : Nat) : Option Nat :=
  if env.mem_start ≤ addr ∧ addr < env.mem_end then some env.mem_end else none

/-- Modelled from the spec: `native-to-app(pointer) -> offset` behind
`addr_native_to_app`; `0` for a pointer outside guest memory. -/
def addr_native_to_app (env : Env) (p : Nat) : Nat :=
  if env.mem_start ≤ p ∧ p < env.mem_end then p - env.mem_start else 0

/-- Modelled from the spec: `app-to-native(offset) -> pointer` behind
`wasm_runtime_addr_app_to_native`; `NULL` for an offset outside guest memory. -/
def wasm_runtime_addr_app_to_native (env : Env) (offset : Nat) : Nat :=
  if env.mem_start + offset < env.mem_end then env.mem_start + offset else 0

/-- What the allocators return during one call of `wwrap_wrapper`: whether
each `bh_hash_map_create` succeeds, the address returned by each
`wasm_runtime_malloc` (`0` on failure) and the indeterminate contents of the
fresh blocks, which `wasm_runtime_malloc` does not clear. -/
structure Allocs where
  modules_map_ok : Bool
  m_node : Nat
  m_node_functions : Nat
  m_node_base : Nat
  functions_map_ok : Bool
  node : Nat
  node_parameters : Nat → Nat

/-- How the loop reading the parameter codes ends. -/
inductive LoopEnd where
  | done
  | fail
  | overflow (index : Nat)
deriving DecidableEq

/-- The result of the loop: how it ended, the node as written so far, and the
cursors at which `_va_arg` read a word, in order. -/
structure LoopResult where
  stop : LoopEnd
  node : function_node
  reads : List Nat
deriving DecidableEq

/-- The statement `node->parameters[node->parameter_count++] = value`; `none`
when the index is outside `uint32 parameters[16]`. -/
def store_parameter (node : function_node) (value : Nat) : Option function_node :=
  if node.parameter_count < 16 then
    some { node with
      parameters := node.parameters.set node.parameter_count (u32 value)
      parameter_count := node.parameter_count + 1 }
  else none

/-- The loop `while (parameter_count--) { CHECK_VA_ARG(va_args, int32);
node->parameters[node->parameter_count++] = _va_arg(va_args, int32); }`. -/
def read_parameters (env : Env) (native_end_addr : Nat) :
    Nat → Nat → function_node → LoopResult
  | 0, _, node => { stop := LoopEnd.done, node := node, reads := [] }
  | n + 1, va_args, node =>
    if va_args + _INTSIZEOF sizeof_int32 > native_end_addr then
      { stop := LoopEnd.fail, node := node, reads := [] }
    else
      match store_parameter node (env.read32 va_args) with
      | none => { stop := LoopEnd.overflow node.parameter_count, node := node, reads := [va_args] }
      | some node1 =>
        let r := read_parameters env native_end_addr n (va_args + _INTSIZEOF sizeof_int32) node1
        { r with reads := va_args :: r.reads }

/-- Whether the three addresses pass the checks of lines 146-148 of
`wwrap_wrapper`: the module name, the function identifier when it is not an
ordinal (greater than `0xFFFF`), and the cursor, each for one 32-bit word. -/
def wwrap_validate (env : Env) (module function va_args : Nat) : Bool :=
  !(!native_addr_in_bounds env module sizeof_int32
    || (decide (function > 0xFFFF) && !native_addr_in_bounds env function sizeof_int32)
    || !native_addr_in_bounds env va_args sizeof_int32)

/-- Lines 146-148 of `wwrap_wrapper` as executed: the three
`validate_native_addr` calls in order, `||` stopping at the first that fails;
`true` when all pass, with the state the validator leaves. -/
def wwrap_checks (env : Env) (s : State) (module function va_args : Nat) : Bool × State :=
  let r1 := validate_native_addr env s module sizeof_int32
  if !r1.1 then (false, r1.2)
  else if function > 0xFFFF then
    let r2 := validate_native_addr env r1.2 function sizeof_int32
    if !r2.1 then (false, r2.2)
    else
      let r3 := validate_native_addr env r2.2 va_args sizeof_int32
      (r3.1, r3.2)
  else
    let r3 := validate_native_addr env r1.2 va_args sizeof_int32
    (r3.1, r3.2)

/-- Lines 156-167 of `wwrap_wrapper`: `GetModuleHandleA`, else `LoadLibraryA`,
then `GetProcAddress`; `none` where the code returns `NULL`. -/
def wwrap_resolve (env : Env) (module function : Nat) : Option (Nat × Nat) :=
  let base := env.GetModuleHandleA module
  let base := if base = 0 then env.LoadLibraryA module else base
  if base = 0 then none
  else
    let func := env.GetProcAddress base function
    if func = 0 then none else some (base, func)

/-- The block of a fresh `function_node` after lines 216-220: back pointer,
function address, and the return code in slot 0; the other slots keep the
indeterminate contents of the allocation. -/
def new_function_node (a : Allocs) (m_node func return_code : Nat) : function_node :=
  { m_node := m_node
    func := func
    parameters := ((List.range 16).map a.node_parameters).set 0 (u32 return_code)
    parameter_count := 1 }

/-- Lines 200-231 of `wwrap_wrapper`: `mn` is the block at `m_node` and `F` its functions map. -/
def wwrap_node (env : Env) (a : Allocs) (s : State) (native_end_addr m_node func : Nat)
    (return_code parameter_count : Nat) (va_args : Nat) (mn : module_node) (F : HashMap) :
    Outcome Nat :=
  let node := bh_hash_map_find F func
  if node ≠ 0 then Outcome.ok (addr_native_to_app env node) s
  else if a.node = 0 then Outcome.ok 0 s
  else
    let F1 := bh_hash_map_insert F func a.node
    let mods := s.module_nodes.write m_node { mn with functions := some F1 }
    let r := read_parameters env native_end_addr parameter_count va_args
      (new_function_node a m_node func return_code)
    match r.stop with
    | LoopEnd.done =>
      Outcome.ok (addr_native_to_app env a.node)
        { s with module_nodes := mods
                 function_nodes := s.function_nodes.write a.node r.node }
    | LoopEnd.fail =>
      Outcome.ok 0
        { s with module_nodes := mods
                 function_nodes := s.function_nodes.write a.node r.node
                 exception := some "out of bounds memory access" }
    | LoopEnd.overflow index => Outcome.undefined (Fault.out_of_bounds_write index)

/-- How lines 171-198 of `wwrap_wrapper` end: the call has returned (or hit
undefined behaviour), or it reaches the lookup of `func` on line 200 with the
state so far, the `module_node` address, its block and its functions map. -/
inductive Prepared where
  | returned (r : Outcome Nat)
  | reached (s : State) (m_node : Nat) (mn : module_node) (F : HashMap)
deriving DecidableEq

/-- Lines 192-198 of `wwrap_wrapper`: read `m_node->functions` and create the
map when it is `NULL`. -/
def wwrap_functions (a : Allocs) (s : State) (m_node : Nat) : Prepared :=
  match s.module_nodes.read m_node with
  | none => Prepared.returned (Outcome.undefined (Fault.invalid_pointer m_node))
  | some mn =>
    match mn.functions with
    | some F => Prepared.reached s m_node mn F
    | none =>
      if a.functions_map_ok then
        Prepared.reached
          { s with module_nodes := s.module_nodes.write m_node { mn with functions := some [] } }
          m_node { mn with functions := some [] } []
      else Prepared.returned (Outcome.ok 0 s)

/-- Lines 171-198 of `wwrap_wrapper`: create `g_modules` if needed, find or
allocate the `module_node` of `base`, then read its functions map.  The fresh
`module_node` is never written: `functions` and `base` keep the indeterminate
contents of the allocation, and a non-`NULL` indeterminate `functions` is then
used as a map pointer. -/
def wwrap_modules (a : Allocs) (s : State) (base : Nat) : Prepared :=
  let created : Option HashMap :=
    match s.g_modules with
    | some G => some G
    | none => if a.modules_map_ok then some [] else none
  match created with
  | none => Prepared.returned (Outcome.ok 0 s)
  | some G =>
    let m_node := bh_hash_map_find G base
    if m_node ≠ 0 then wwrap_functions a { s with g_modules := some G } m_node
    else if a.m_node = 0 then Prepared.returned (Outcome.ok 0 { s with g_modules := some G })
    else if a.m_node_functions ≠ 0 then
      Prepared.returned (Outcome.undefined (Fault.invalid_pointer a.m_node_functions))
    else
      wwrap_functions a
        { s with g_modules := some (bh_hash_map_insert G base a.m_node)
                 module_nodes := s.module_nodes.write a.m_node
                   { functions := none, base := a.m_node_base } }
        a.m_node

/-- Lines 171-231 of `wwrap_wrapper`, after the loader resolved `base` and `func`. -/
def wwrap_registry (env : Env) (a : Allocs) (s : State) (native_end_addr base func : Nat)
    (return_code parameter_count : Nat) (va_args : Nat) : Outcome Nat :=
  match wwrap_modules a s base with
  | Prepared.returned r => r
  | Prepared.reached s1 m_node mn F =>
    wwrap_node env a s1 native_end_addr m_node func return_code parameter_count va_args mn F

/-- Function `wwrap_wrapper` (bind), on the `_WIN32` branch.  `parameter_count`
is the `uint32` parameter (the body also declares a local of that name, which
it never assigns); the loop `while (parameter_count--)` runs that many times. -/
def wwrap_wrapper (env : Env) (a : Allocs) (s : State) (module function : Nat)
    (return_code parameter_count : Nat) (va_args : Nat) : Outcome Nat :=
  let c := wwrap_checks env s module function va_args
  if !c.1 then Outcome.ok 0 c.2
  else
    match wasm_runtime_get_native_addr_range env va_args with
    | none => Outcome.ok 0 { c.2 with exception := some "out of bounds memory access" }
    | some native_end_addr =>
      match wwrap_resolve env module function with
      | none => Outcome.ok 0 c.2
      | some (base, func) =>
        wwrap_registry env a c.2 native_end_addr base func return_code parameter_count va_args

/-- Function `wunwrap_wrapper` (unbind). -/
def wunwrap_wrapper (env : Env) (s : State) (node_addr : Nat) : Outcome Int :=
  let node := wasm_runtime_addr_app_to_native env node_addr
  if node = 0 then Outcome.ok (-1) s
  else
    match s.function_nodes.read node with
    | none => Outcome.undefined (Fault.invalid_pointer node)
    | some n =>
      let m_node := n.m_node
      match s.module_nodes.read m_node with
      | none => Outcome.undefined (Fault.invalid_pointer m_node)
      | some mn =>
        match mn.functions with
        | none => Outcome.undefined (Fault.invalid_pointer 0)
        | some F =>
          let F1 := bh_hash_map_remove F n.func
          let s1 : State :=
            { s with module_nodes := s.module_nodes.write m_node { mn with functions := some F1 }
                     function_nodes := s.function_nodes.release node }
          if bh_hash_map_get_count F1 ≠ 0 then Outcome.ok 0 s1
          else
            match s1.g_modules with
            | none => Outcome.undefined (Fault.invalid_pointer 0)
            | some G =>
              Outcome.ok 0
                { s1 with g_modules := some (bh_hash_map_remove G mn.base)
                          unloaded := mn.base :: s1.unloaded
                          module_nodes := s1.module_nodes.release m_node }

/-- Function `wcall_wrapper` (invoke): one address check, then `return 0`. -/
def wcall_wrapper (env : Env) (s : State) (_ref_idx : Nat) (va_args : Nat) : Outcome Int :=
  let r := validate_native_addr env s va_args sizeof_int32
  if !r.1 then Outcome.ok 0 r.2
  else Outcome.ok 0 r.2

/-- What `calloc_wrapper` did: the returned offset, the sizes passed to
`module_malloc`, and the `memset` calls as (pointer, byte, length). -/
structure CallocResult where
  ret : Nat
  malloc_calls : List Nat
  memsets : List (Nat × Nat × Nat)
deriving DecidableEq

/-- Function `calloc_wrapper`; `module_malloc` gives the offset and the native pointer. -/
def calloc_wrapper (module_malloc : Nat → Nat × Nat) (nmemb size : Nat) : CallocResult :=
  let total_size := u64 (u64 nmemb * u64 size)
  if total_size ≥ UINT32_MAX then { ret := 0, malloc_calls := [], memsets := [] }
  else
    let r := module_malloc (u32 total_size)
    if r.1 ≠ 0 then
      { ret := r.1, malloc_calls := [u32 total_size], memsets := [(r.2, 0, u32 total_size)] }
    else
      { ret := r.1, malloc_calls := [u32 total_size], memsets := [] }

/-- The `module_node` address registered in `g_modules` under `base`, `NULL` when there is none. -/
def State.module_entry (s : State) (base : Nat) : Nat :=
  match s.g_modules with
  | none => 0
  | some G => bh_hash_map_find G base

/-- The functions map of the live `module_node` block at `m_node`, if any. -/
def State.functions_of (s : State) (m_node : Nat) : Option HashMap :=
  match s.module_nodes.read m_node with
  | none => none
  | some mn => mn.functions

/-- The `function_node` address registered for `func` under the module entry of
`base`, `NULL` when there is none. -/
def State.binding (s : State) (base func : Nat) : Nat :=
  match s.functions_of (s.module_entry base) with
  | none => 0
  | some F => bh_hash_map_find F func

/-- The number of entries of `g_modules` whose key equals `base`. -/
def State.module_entries (s : State) (base : Nat) : Nat :=
  match s.g_modules with
  | none => 0
  | some G => (G.filter (fun e => wwrap_equal e.1 base)).length

/-- The number of entries stored for `func` in the functions map of the module entry of `base`. -/
def State.binding_entries (s : State) (base func : Nat) : Nat :=
  match s.functions_of (s.module_entry base) with
  | none => 0
  | some F => (F.filter (fun e => wwrap_equal e.1 func)).length

/-! ## Concrete inputs

A guest memory of 64 KiB at native addresses `0x10000 .. 0x20000`; a module
name at `0x10010` that the loader resolves to base `0x70000000`; function names
at `0x10020` and `0x10030` resolving to `0x70001000` and `0x70002000`; every
32-bit word of guest memory holds 3 (the code `PARAMETER_TYPE_INT32`). -/

/-- The example collaborators. -/
def exEnv : Env :=
  { mem_start := 0x10000
    mem_end := 0x20000
    read32 := fun _ => 3
    GetModuleHandleA := fun m => if m = 0x10010 then 0x70000000 else 0
    LoadLibraryA := fun _ => 0
    GetProcAddress := fun b f =>
      if b = 0x70000000 then
        (if f = 0x10020 then 0x70001000 else if f = 0x10030 then 0x70002000 else 0)
      else 0
    call_native := fun _ args => args.sum }

/-- The example collaborators on a 64-bit host where a third name, at `0x10040`,
resolves through the same module handle to `0x170001000`, an address with the
same low 32 bits as `0x70001000`. -/
def exEnvFar : Env :=
  { mem_start := 0x10000
    mem_end := 0x20000
    read32 := fun _ => 3
    GetModuleHandleA := fun m => if m = 0x10010 then 0x70000000 else 0
    LoadLibraryA := fun _ => 0
    GetProcAddress := fun b f =>
      if b = 0x70000000 then
        (if f = 0x10020 then 0x70001000 else if f = 0x10040 then 0x170001000 else 0)
      else 0
    call_native := fun _ args => args.sum }

/-- Example allocator results: the `module_node` at `0x500000`, the
`function_node` at the given address, fresh blocks reading as zero. -/
def exAllocs (node : Nat) : Allocs :=
  { modules_map_ok := true
    m_node := 0x500000
    m_node_functions := 0
    m_node_base := 0
    functions_map_ok := true
    node := node
    node_parameters := fun _ => 0 }

/-- The state after binding `("m", "f")` with return kind int32 and two int32
parameters from the initial state; the handle is `0x8000`. -/
def exBound : State :=
  { g_modules := some [(0x70000000, 0x500000)]
    module_nodes := [(0x500000, { functions := some [(0x70001000, 0x18000)], base := 0 })]
    function_nodes :=
      [(0x18000, { m_node := 0x500000, func := 0x70001000,
                   parameters := [3, 3, 3, 0, 0, 0, 0, 0, 0, 0, 0, 0, 0, 0, 0, 0],
                   parameter_count := 3 })]
    exception := none
    unloaded := [] }

/-- The state after also binding `("m", "g")` with one int32 parameter in
`exBound`; the second handle is `0x8100`. -/
def exBoundTwo : State :=
  { g_modules := some [(0x70000000, 0x500000)]
    module_nodes :=
      [(0x500000, { functions := some [(0x70002000, 0x18100), (0x70001000, 0x18000)], base := 0 })]
    function_nodes :=
      [(0x18100, { m_node := 0x500000, func := 0x70002000,
                   parameters := [3, 3, 0, 0, 0, 0, 0, 0, 0, 0, 0, 0, 0, 0, 0, 0],
                   parameter_count := 2 }),
       (0x18000, { m_node := 0x500000, func := 0x70001000,
                   parameters := [3, 3, 3, 0, 0, 0, 0, 0, 0, 0, 0, 0, 0, 0, 0, 0],
                   parameter_count := 3 })]
    exception := none
    unloaded := [] }

/-- The state after unbinding handle `0x8000` in `exBound`. -/
def exUnbound : State :=
  { g_modules := some [(0x70000000, 0x500000)]
    module_nodes := []
    function_nodes := []
    exception := none
    unloaded := [0] }

/-! ## Lemmas on the hash map and the heap tables -/

/-- A map without `NULL` values, as `bh_hash_map_insert` is only ever given non-`NULL` nodes. -/
def HashMap_no_null (map : HashMap) : Bool := map.all (fun e => e.2 != 0)

/-- A map whose keys are pairwise different under `wwrap_equal`. -/
def HashMap_unique : HashMap → Bool
  | [] => true
  | (k, _) :: rest => !bh_hash_map_has rest k && HashMap_unique rest

/-- Well-formed registry: every map reachable from the state has unique keys
and stores no `NULL` value. -/
def State.wf (s : State) : Prop :=
  (∀ G, s.g_modules = some G → HashMap_no_null G = true ∧ HashMap_unique G = true)
    ∧ ∀ p mn F, s.module_nodes.read p = some mn → mn.functions = some F →
        HashMap_no_null F = true ∧ HashMap_unique F = true

/-- Every registered binding is a live `function_node` that points back to the
`module_node` whose map holds it and carries the key it is stored under. -/
def State.linked (s : State) : Prop :=
  ∀ p mn F k v, s.module_nodes.read p = some mn → mn.functions = some F → (k, v) ∈ F →
    ∃ fn, s.function_nodes.read v = some fn ∧ fn.m_node = p ∧ wwrap_equal fn.func k = true

/-- The registry invariant: well-formed maps and linked bindings. -/
def State.inv (s : State) : Prop := s.wf ∧ s.linked

/-- The states the bridge can be in: the initial state, and any state a bind
or an unbind returns in, where each `wasm_runtime_malloc` of a bind returns a
block that is not live. -/
inductive Reachable (env : Env) : State → Prop where
  | init : Reachable env State.init
  | bind (a : Allocs) (s s1 : State) (module function return_code parameter_count va_args v : Nat) :
      Reachable env s → s.function_nodes.read a.node = none →
      wwrap_wrapper env a s module function return_code parameter_count va_args
        = Outcome.ok v s1 →
      Reachable env s1
  | unbind (s s1 : State) (node_addr : Nat) (v : Int) :
      Reachable env s → wunwrap_wrapper env s node_addr = Outcome.ok v s1 →
      Reachable env s1

theorem sizeof_int32_rounded : _INTSIZEOF sizeof_int32 = 4 := by decide

theorem wwrap_equal_self (k : Nat) : wwrap_equal k k = true := by
  simp [wwrap_equal]

theorem find_eq_zero_of_not_has (m : HashMap) (k : Nat) (h : bh_hash_map_has m k = false) :
    bh_hash_map_find m k = 0 := by
  induction m with
  | nil => rfl
  | cons e rest ih =>
    obtain ⟨k0, v0⟩ := e
    simp only [bh_hash_map_has, Bool.or_eq_false_iff] at h
    simp [bh_hash_map_find, h.1, ih h.2]

theorem has_of_find_ne_zero (m : HashMap) (k : Nat) (h : bh_hash_map_find m k ≠ 0) :
    bh_hash_map_has m k = true := by
  by_contra hc
  exact h (find_eq_zero_of_not_has m k (by simpa using hc))

theorem not_has_of_find_eq_zero (m : HashMap) (k : Nat) (hm : HashMap_no_null m = true)
    (h : bh_hash_map_find m k = 0) : bh_hash_map_has m k = false := by
  induction m with
  | nil => rfl
  | cons e rest ih =>
    obtain ⟨k0, v0⟩ := e
    simp only [HashMap_no_null, List.all_cons, Bool.and_eq_true, bne_iff_ne, ne_eq] at hm
    simp only [bh_hash_map_find] at h
    by_cases hk : wwrap_equal k0 k = true
    · simp only [hk, if_true] at h
      exact absurd h hm.1
    · have hk2 : wwrap_equal k0 k = false := by simpa using hk
      simp only [hk2] at h
      simp only [bh_hash_map_has, hk2, Bool.false_or]
      exact ih hm.2 (by simpa using h)

theorem find_insert_self (m : HashMap) (k v : Nat) (h : bh_hash_map_has m k = false) :
    bh_hash_map_find (bh_hash_map_insert m k v) k = v := by
  simp [bh_hash_map_insert, h, bh_hash_map_find, wwrap_equal_self]

theorem find_insert_other (m : HashMap) (k k2 v : Nat) (h : wwrap_equal k k2 = false) :
    bh_hash_map_find (bh_hash_map_insert m k v) k2 = bh_hash_map_find m k2 := by
  unfold bh_hash_map_insert
  split
  · rfl
  · simp [bh_hash_map_find, h]

theorem no_null_insert (m : HashMap) (k v : Nat) (hm : HashMap_no_null m = true) (hv : v ≠ 0) :
    HashMap_no_null (bh_hash_map_insert m k v) = true := by
  unfold bh_hash_map_insert
  split
  · exact hm
  · simp only [HashMap_no_null, List.all_cons, Bool.and_eq_true, bne_iff_ne, ne_eq]
    exact ⟨hv, hm⟩

theorem wwrap_equal_trans_false (a b c : Nat) (hab : wwrap_equal a b = true)
    (hbc : wwrap_equal b c = false) : wwrap_equal a c = false := by
  simp only [wwrap_equal, beq_iff_eq, beq_eq_false_iff_ne, ne_eq] at *
  rw [hab]
  exact hbc

theorem find_remove_other (m : HashMap) (k k2 : Nat) (h : wwrap_equal k k2 = false) :
    bh_hash_map_find (bh_hash_map_remove m k) k2 = bh_hash_map_find m k2 := by
  induction m with
  | nil => rfl
  | cons e rest ih =>
    obtain ⟨k0, v0⟩ := e
    by_cases hk : wwrap_equal k0 k = true
    · have h02 : wwrap_equal k0 k2 = false := wwrap_equal_trans_false k0 k k2 hk h
      simp [bh_hash_map_remove, hk, bh_hash_map_find, h02]
    · have hk2 : wwrap_equal k0 k = false := by simpa using hk
      simp [bh_hash_map_remove, hk2, bh_hash_map_find, ih]

theorem heap_read_release_self {α : Type} (h : Heap α) (p : Nat) :
    Heap.read (Heap.release h p) p = none := by
  induction h with
  | nil => rfl
  | cons e rest ih =>
    obtain ⟨q, v⟩ := e
    by_cases hq : q = p
    · simp [Heap.release, hq, ih]
    · simp [Heap.release, hq, Heap.read, ih]

theorem heap_read_release_other {α : Type} (h : Heap α) (p q : Nat) (hpq : p ≠ q) :
    Heap.read (Heap.release h p) q = Heap.read h q := by
  induction h with
  | nil => rfl
  | cons e rest ih =>
    obtain ⟨r, v⟩ := e
    by_cases hr : r = p
    · have : r ≠ q := by rw [hr]; exact hpq
      simp [Heap.release, hr, Heap.read, ih, hpq]
    · simp [Heap.release, hr, Heap.read, ih]

theorem heap_read_write_self {α : Type} (h : Heap α) (p : Nat) (v : α) :
    Heap.read (Heap.write h p v) p = some v := by
  simp [Heap.write, Heap.read]

theorem heap_read_write_other {α : Type} (h : Heap α) (p q : Nat) (v : α) (hpq : p ≠ q) :
    Heap.read (Heap.write h p v) q = Heap.read h q := by
  simp [Heap.write, Heap.read, hpq, heap_read_release_other h p q hpq]

theorem wwrap_equal_symm (a b : Nat) : wwrap_equal a b = wwrap_equal b a := by
  simp only [wwrap_equal]
  exact Bool.beq_comm

theorem has_congr (m : HashMap) (k k2 : Nat) (h : wwrap_equal k k2 = true) :
    bh_hash_map_has m k = bh_hash_map_has m k2 := by
  have hk : u32 k = u32 k2 := by simpa [wwrap_equal] using h
  induction m with
  | nil => rfl
  | cons e rest ih =>
    obtain ⟨k0, v0⟩ := e
    simp only [bh_hash_map_has, ih, wwrap_equal, hk]

theorem unique_insert (m : HashMap) (k v : Nat) (hm : HashMap_unique m = true) :
    HashMap_unique (bh_hash_map_insert m k v) = true := by
  unfold bh_hash_map_insert
  split
  · exact hm
  · rename_i hk
    simp only [HashMap_unique, Bool.and_eq_true, Bool.not_eq_true']
    exact ⟨by simpa using hk, hm⟩

theorem count_eq_zero_of_not_has (m : HashMap) (k : Nat) (h : bh_hash_map_has m k = false) :
    (m.filter (fun e => wwrap_equal e.1 k)).length = 0 := by
  induction m with
  | nil => rfl
  | cons e rest ih =>
    obtain ⟨k0, v0⟩ := e
    simp only [bh_hash_map_has, Bool.or_eq_false_iff] at h
    simp [List.filter_cons, h.1, ih h.2]

theorem count_eq_one_of_has (m : HashMap) (k : Nat) (hu : HashMap_unique m = true)
    (h : bh_hash_map_has m k = true) :
    (m.filter (fun e => wwrap_equal e.1 k)).length = 1 := by
  induction m with
  | nil => simp [bh_hash_map_has] at h
  | cons e rest ih =>
    obtain ⟨k0, v0⟩ := e
    simp only [HashMap_unique, Bool.and_eq_true, Bool.not_eq_true'] at hu
    by_cases hk : wwrap_equal k0 k = true
    · have hr : bh_hash_map_has rest k = false := by
        rw [← has_congr rest k0 k hk]; exact hu.1
      simp [List.filter_cons, hk, count_eq_zero_of_not_has rest k hr]
    · have hk2 : wwrap_equal k0 k = false := by simpa using hk
      simp only [bh_hash_map_has, hk2, Bool.false_or] at h
      simp [List.filter_cons, hk2, ih hu.2 h]

theorem has_insert_self (m : HashMap) (k v : Nat) :
    bh_hash_map_has (bh_hash_map_insert m k v) k = true := by
  unfold bh_hash_map_insert
  split
  · assumption
  · simp [bh_hash_map_has, wwrap_equal_self]

theorem has_remove_le (m : HashMap) (k k2 : Nat) (h : bh_hash_map_has m k2 = false) :
    bh_hash_map_has (bh_hash_map_remove m k) k2 = false := by
  induction m with
  | nil => rfl
  | cons e rest ih =>
    obtain ⟨k0, v0⟩ := e
    simp only [bh_hash_map_has, Bool.or_eq_false_iff] at h
    by_cases hk : wwrap_equal k0 k = true
    · simp [bh_hash_map_remove, hk, h.2]
    · have hk2 : wwrap_equal k0 k = false := by simpa using hk
      simp [bh_hash_map_remove, hk2, bh_hash_map_has, h.1, ih h.2]

theorem unique_remove (m : HashMap) (k : Nat) (hm : HashMap_unique m = true) :
    HashMap_unique (bh_hash_map_remove m k) = true := by
  induction m with
  | nil => rfl
  | cons e rest ih =>
    obtain ⟨k0, v0⟩ := e
    simp only [HashMap_unique, Bool.and_eq_true, Bool.not_eq_true'] at hm
    by_cases hk : wwrap_equal k0 k = true
    · simp [bh_hash_map_remove, hk, hm.2]
    · have hk2 : wwrap_equal k0 k = false := by simpa using hk
      simp only [bh_hash_map_remove, hk2, HashMap_unique, Bool.and_eq_true, Bool.not_eq_true']
      exact ⟨by simpa using has_remove_le rest k k0 hm.1, ih hm.2⟩

theorem no_null_remove (m : HashMap) (k : Nat) (hm : HashMap_no_null m = true) :
    HashMap_no_null (bh_hash_map_remove m k) = true := by
  induction m with
  | nil => rfl
  | cons e rest ih =>
    obtain ⟨k0, v0⟩ := e
    simp only [HashMap_no_null, List.all_cons, Bool.and_eq_true, bne_iff_ne, ne_eq] at hm
    by_cases hk : wwrap_equal k0 k = true
    · simp only [bh_hash_map_remove, hk, if_true]
      exact hm.2
    · have hk2 : wwrap_equal k0 k = false := by simpa using hk
      have hrest := ih hm.2
      simp only [HashMap_no_null] at hrest
      simp only [bh_hash_map_remove, hk2, HashMap_no_null, List.all_cons, Bool.and_eq_true,
        bne_iff_ne, ne_eq, Bool.false_eq_true, if_false]
      exact ⟨hm.1, hrest⟩

/-! ## The loop reading the parameter codes -/

theorem range_succ_map_cursor (va n : Nat) :
    (List.range (n + 1)).map (fun i => va + 4 * i)
      = va :: (List.range n).map (fun i => va + 4 + 4 * i) := by
  rw [List.range_succ_eq_map, List.map_cons, List.map_map]
  congr 1
  apply List.map_congr_left
  intro i _
  simp only [Function.comp, Nat.succ_eq_add_one]
  omega

theorem read_parameters_spec (env : Env) (native_end_addr : Nat) (n : Nat) :
    ∀ (va : Nat) (node : function_node),
      node.parameters.length = 16 → node.parameter_count + n ≤ 16 →
      va + 4 * n ≤ native_end_addr →
      (read_parameters env native_end_addr n va node).stop = LoopEnd.done
      ∧ (read_parameters env native_end_addr n va node).node.m_node = node.m_node
      ∧ (read_parameters env native_end_addr n va node).node.func = node.func
      ∧ (read_parameters env native_end_addr n va node).node.parameter_count
          = node.parameter_count + n
      ∧ (read_parameters env native_end_addr n va node).node.parameters.length = 16
      ∧ (∀ i, i < node.parameter_count →
          (read_parameters env native_end_addr n va node).node.parameters[i]?
            = node.parameters[i]?)
      ∧ (∀ i, i < n →
          (read_parameters env native_end_addr n va node).node.parameters[node.parameter_count + i]?
            = some (u32 (env.read32 (va + 4 * i))))
      ∧ (read_parameters env native_end_addr n va node).reads
          = (List.range n).map (fun i => va + 4 * i) := by
  induction n with
  | zero =>
    intro va node hlen _ _
    simp [read_parameters, hlen]
  | succ n ih =>
    intro va node hlen hcap hva
    have hlt : node.parameter_count < 16 := by omega
    have hck : ¬ (va + 4 > native_end_addr) := by omega
    obtain ⟨node1, hnode1⟩ : ∃ x : function_node, x = { node with
            parameters := node.parameters.set node.parameter_count (u32 (env.read32 va))
            parameter_count := node.parameter_count + 1 } := ⟨_, rfl⟩
    have hstore : store_parameter node (env.read32 va) = some node1 := by
      simp [store_parameter, hlt, hnode1]
    have hpc : node1.parameter_count = node.parameter_count + 1 := by rw [hnode1]
    have hpar : node1.parameters
        = node.parameters.set node.parameter_count (u32 (env.read32 va)) := by rw [hnode1]
    have hm : node1.m_node = node.m_node := by rw [hnode1]
    have hf : node1.func = node.func := by rw [hnode1]
    obtain ⟨h1, h2, h3, h4, h5, h6, h7, h8⟩ :=
      ih (va + 4) node1 (by rw [hpar]; simp [hlen]) (by rw [hpc]; omega) (by omega)
    simp only [read_parameters, sizeof_int32_rounded, hck, if_false, hstore]
    refine ⟨h1, by rw [h2, hm], by rw [h3, hf], ?_, h5, ?_, ?_, ?_⟩
    · rw [h4, hpc]; omega
    · intro i hi
      rw [h6 i (by rw [hpc]; omega), hpar]
      exact List.getElem?_set_ne (by omega)
    · intro i hi
      cases i with
      | zero =>
        have h60 := h6 node.parameter_count (by rw [hpc]; omega)
        rw [hpar] at h60
        simp only [Nat.mul_zero, Nat.add_zero]
        rw [h60]
        exact List.getElem?_set_self (by omega)
      | succ j =>
        have := h7 j (by omega)
        rw [hpc] at this
        have e1 : node.parameter_count + (j + 1) = node.parameter_count + 1 + j := by omega
        have e2 : va + 4 * (j + 1) = va + 4 + 4 * j := by omega
        rw [e1, e2]
        exact this
    · rw [h8, range_succ_map_cursor]

/-! ## The stages of bind -/

theorem new_function_node_length (a : Allocs) (m_node func return_code : Nat) :
    (new_function_node a m_node func return_code).parameters.length = 16 := by
  simp [new_function_node]

theorem native_addr_in_bounds_iff (env : Env) (addr size : Nat) :
    native_addr_in_bounds env addr size = true
      ↔ env.mem_start ≤ addr ∧ addr + size ≤ env.mem_end := by
  simp [native_addr_in_bounds]

theorem wwrap_checks_eq (env : Env) (s : State) (module function va_args : Nat) :
    wwrap_checks env s module function va_args
      = (wwrap_validate env module function va_args,
          if wwrap_validate env module function va_args = true then s
          else { s with exception := some "out of bounds memory access" }) := by
  unfold wwrap_checks wwrap_validate validate_native_addr
  by_cases h1 : native_addr_in_bounds env module sizeof_int32 = true
  · by_cases hf : function > 0xFFFF
    · by_cases h2 : native_addr_in_bounds env function sizeof_int32 = true
      · by_cases h3 : native_addr_in_bounds env va_args sizeof_int32 = true
        · simp [h1, hf, h2, h3]
        · simp [h1, hf, h2, h3]
      · simp [h1, hf, h2]
    · by_cases h3 : native_addr_in_bounds env va_args sizeof_int32 = true
      · simp [h1, hf, h3]
      · simp [h1, hf, h3]
  · simp [h1]

theorem wwrap_validate_cursor (env : Env) (module function va_args : Nat)
    (h : wwrap_validate env module function va_args = true) :
    env.mem_start ≤ va_args ∧ va_args + 4 ≤ env.mem_end := by
  unfold wwrap_validate at h
  simp only [Bool.not_eq_true', Bool.or_eq_false_iff, Bool.not_eq_false'] at h
  exact (native_addr_in_bounds_iff env va_args 4).1 h.2

theorem wwrap_wrapper_eq_registry (env : Env) (a : Allocs) (s : State)
    (module function return_code parameter_count va_args base func : Nat)
    (hval : wwrap_validate env module function va_args = true)
    (hres : wwrap_resolve env module function = some (base, func)) :
    wwrap_wrapper env a s module function return_code parameter_count va_args
      = wwrap_registry env a s env.mem_end base func return_code parameter_count va_args := by
  have hc := wwrap_validate_cursor env module function va_args hval
  have hr : wasm_runtime_get_native_addr_range env va_args = some env.mem_end := by
    unfold wasm_runtime_get_native_addr_range
    rw [if_pos ⟨hc.1, by omega⟩]
  simp [wwrap_wrapper, wwrap_checks_eq, hval, hr, hres]

theorem wwrap_functions_found (a : Allocs) (s : State) (m_node : Nat) (mn : module_node)
    (F : HashMap) (hread : s.module_nodes.read m_node = some mn)
    (hF : mn.functions = some F) :
    wwrap_functions a s m_node = Prepared.reached s m_node mn F := by
  simp [wwrap_functions, hread, hF]

theorem wwrap_modules_found (a : Allocs) (s : State) (base m_node : Nat) (mn : module_node)
    (F : HashMap) (hentry : s.module_entry base = m_node) (hm : m_node ≠ 0)
    (hread : s.module_nodes.read m_node = some mn) (hF : mn.functions = some F) :
    wwrap_modules a s base = Prepared.reached s m_node mn F := by
  unfold State.module_entry at hentry
  cases hG : s.g_modules with
  | none => rw [hG] at hentry; exact absurd hentry.symm hm
  | some G =>
    rw [hG] at hentry
    have hs : { s with g_modules := some G } = s := by rw [← hG]
    simp only at hentry
    subst hentry
    simp only [wwrap_modules, hG, hs]
    rw [if_pos hm]
    exact wwrap_functions_found a s _ mn F hread hF

theorem wwrap_node_found (env : Env) (a : Allocs) (s : State)
    (native_end_addr m_node func return_code parameter_count va_args : Nat)
    (mn : module_node) (F : HashMap) (h : bh_hash_map_find F func ≠ 0) :
    wwrap_node env a s native_end_addr m_node func return_code parameter_count va_args mn F
      = Outcome.ok (addr_native_to_app env (bh_hash_map_find F func)) s := by
  simp [wwrap_node, h]

theorem wwrap_node_new (env : Env) (a : Allocs) (s : State)
    (native_end_addr m_node func return_code n va_args : Nat)
    (mn : module_node) (F : HashMap) (hnew : bh_hash_map_find F func = 0)
    (hnode : a.node ≠ 0) (hcap : n + 1 ≤ 16) (hstream : va_args + 4 * n ≤ native_end_addr) :
    wwrap_node env a s native_end_addr m_node func return_code n va_args mn F
      = Outcome.ok (addr_native_to_app env a.node)
          { s with
            module_nodes := s.module_nodes.write m_node
              { mn with functions := some (bh_hash_map_insert F func a.node) }
            function_nodes := s.function_nodes.write a.node
              (read_parameters env native_end_addr n va_args
                (new_function_node a m_node func return_code)).node } := by
  have hloop := read_parameters_spec env native_end_addr n va_args
    (new_function_node a m_node func return_code)
    (new_function_node_length a m_node func return_code)
    (by simp only [new_function_node]; omega) hstream
  simp only [wwrap_node, hnew, ne_eq, not_true_eq_false, if_false, hnode, hloop.1]

theorem wf_module_write (mods : Heap module_node) (m : Nat) (mn : module_node)
    (hmods : ∀ p mn1 F, mods.read p = some mn1 → mn1.functions = some F →
      HashMap_no_null F = true ∧ HashMap_unique F = true)
    (hmn : ∀ F, mn.functions = some F → HashMap_no_null F = true ∧ HashMap_unique F = true) :
    ∀ p mn1 F, (mods.write m mn).read p = some mn1 → mn1.functions = some F →
      HashMap_no_null F = true ∧ HashMap_unique F = true := by
  intro p mn1 F hread hF
  by_cases hp : m = p
  · subst hp
    rw [heap_read_write_self] at hread
    cases hread
    exact hmn F hF
  · rw [heap_read_write_other mods m p mn hp] at hread
    exact hmods p mn1 F hread hF

theorem wf_module_release (mods : Heap module_node) (m : Nat)
    (hmods : ∀ p mn1 F, mods.read p = some mn1 → mn1.functions = some F →
      HashMap_no_null F = true ∧ HashMap_unique F = true) :
    ∀ p mn1 F, (mods.release m).read p = some mn1 → mn1.functions = some F →
      HashMap_no_null F = true ∧ HashMap_unique F = true := by
  intro p mn1 F hread hF
  by_cases hp : m = p
  · subst hp
    rw [heap_read_release_self] at hread
    cases hread
  · rw [heap_read_release_other mods m p hp] at hread
    exact hmods p mn1 F hread hF

theorem linked_module_write (mods : Heap module_node) (fns : Heap function_node) (m : Nat)
    (mn : module_node)
    (hl : ∀ p mn1 F k v, mods.read p = some mn1 → mn1.functions = some F → (k, v) ∈ F →
      ∃ fn, fns.read v = some fn ∧ fn.m_node = p ∧ wwrap_equal fn.func k = true)
    (hmn : ∀ F k v, mn.functions = some F → (k, v) ∈ F →
      ∃ fn, fns.read v = some fn ∧ fn.m_node = m ∧ wwrap_equal fn.func k = true) :
    ∀ p mn1 F k v, (mods.write m mn).read p = some mn1 → mn1.functions = some F → (k, v) ∈ F →
      ∃ fn, fns.read v = some fn ∧ fn.m_node = p ∧ wwrap_equal fn.func k = true := by
  intro p mn1 F k v hread hF hmem
  by_cases hp : m = p
  · subst hp
    rw [heap_read_write_self] at hread
    cases hread
    exact hmn F k v hF hmem
  · rw [heap_read_write_other mods m p mn hp] at hread
    exact hl p mn1 F k v hread hF hmem

theorem wwrap_functions_reached (a : Allocs) (s s1 : State) (m m1 : Nat) (mn : module_node)
    (F : HashMap) (hwf : s.wf) (h : wwrap_functions a s m = Prepared.reached s1 m1 mn F) :
    m1 = m ∧ s1.g_modules = s.g_modules ∧ s1.module_nodes.read m = some mn
      ∧ mn.functions = some F ∧ s1.wf
      ∧ s1.function_nodes = s.function_nodes ∧ s1.exception = s.exception
      ∧ s1.unloaded = s.unloaded ∧ (s.linked → s1.linked) := by
  unfold wwrap_functions at h
  cases hread : s.module_nodes.read m with
  | none => simp [hread] at h
  | some mn0 =>
    cases hF : mn0.functions with
    | some F0 =>
      simp only [hread, hF, Prepared.reached.injEq] at h
      obtain ⟨hs, hm, hmn, hFF⟩ := h
      subst hs hm hmn hFF
      exact ⟨rfl, rfl, hread, hF, hwf, rfl, rfl, rfl, fun hl => hl⟩
    | none =>
      by_cases hok : a.functions_map_ok = true
      · simp only [hread, hF, hok, if_true, Prepared.reached.injEq] at h
        obtain ⟨hs, hm, hmn, hFF⟩ := h
        subst hs hm hmn hFF
        refine ⟨rfl, rfl, heap_read_write_self _ _ _, rfl, ⟨hwf.1, ?_⟩, rfl, rfl, rfl, ?_⟩
        · apply wf_module_write _ _ _ hwf.2
          intro F hF2
          cases hF2
          exact ⟨rfl, rfl⟩
        · intro hl
          apply linked_module_write _ _ _ _ hl
          intro F k v hF2 hmem
          cases hF2
          cases hmem
      · simp [hread, hF, hok] at h

theorem wwrap_modules_reached (a : Allocs) (s s1 : State) (base m : Nat) (mn : module_node)
    (F : HashMap) (hwf : s.wf) (h : wwrap_modules a s base = Prepared.reached s1 m mn F) :
    m ≠ 0 ∧ s1.module_entry base = m ∧ s1.module_entries base = 1
      ∧ s1.module_nodes.read m = some mn ∧ mn.functions = some F ∧ s1.wf
      ∧ s1.function_nodes = s.function_nodes ∧ s1.exception = s.exception
      ∧ s1.unloaded = s.unloaded ∧ (s.linked → s1.linked) := by
  unfold wwrap_modules at h
  -- the map in use after lines 171-177
  obtain ⟨G, hG, hGwf⟩ : ∃ G, (match s.g_modules with
      | some G => some G
      | none => if a.modules_map_ok = true then some [] else none) = some G
      ∧ HashMap_no_null G = true ∧ HashMap_unique G = true := by
    cases hg : s.g_modules with
    | some G0 => exact ⟨G0, rfl, hwf.1 G0 hg⟩
    | none =>
      by_cases hok : a.modules_map_ok = true
      · exact ⟨[], by simp [hok], rfl, rfl⟩
      · simp [hg, hok] at h
  simp only [hG] at h
  by_cases hfound : bh_hash_map_find G base = 0
  · -- a fresh module_node
    simp only [hfound, ne_eq, not_true_eq_false, if_false] at h
    by_cases hm0 : a.m_node = 0
    · simp [hm0] at h
    · by_cases hgarb : a.m_node_functions = 0
      · simp only [hm0, if_false, hgarb, not_true_eq_false] at h
        have hwf1 : State.wf { s with
            g_modules := some (bh_hash_map_insert G base a.m_node)
            module_nodes := s.module_nodes.write a.m_node
              { functions := none, base := a.m_node_base } } := by
          refine ⟨?_, ?_⟩
          · intro G1 hG1
            cases hG1
            exact ⟨no_null_insert G base a.m_node hGwf.1 hm0, unique_insert G base a.m_node hGwf.2⟩
          · apply wf_module_write _ _ _ hwf.2
            intro F1 hF1
            cases hF1
        obtain ⟨e1, e2, e3, e4, e5, e6, e7, e8, e9⟩ :=
          wwrap_functions_reached a _ s1 a.m_node m mn F hwf1 h
        have hnot : bh_hash_map_has G base = false :=
          not_has_of_find_eq_zero G base hGwf.1 hfound
        have hlink : s.linked → s1.linked := by
          intro hl
          apply e9
          apply linked_module_write _ _ _ _ hl
          intro F1 k v hF1
          cases hF1
        refine ⟨by rw [e1]; exact hm0, ?_, ?_, by rw [e1]; exact e3, e4, e5, e6, e7, e8,
          hlink⟩
        · simp only [State.module_entry, e2]
          rw [e1]
          exact find_insert_self G base a.m_node hnot
        · simp only [State.module_entries, e2]
          exact count_eq_one_of_has _ base (unique_insert G base a.m_node hGwf.2)
            (has_insert_self G base a.m_node)
      · simp [hm0, hgarb] at h
  · -- the module_node found in g_modules
    simp only [ne_eq, hfound, not_false_eq_true, if_true] at h
    have hwf1 : State.wf { s with g_modules := some G } := by
      refine ⟨?_, hwf.2⟩
      intro G1 hG1
      cases hG1
      exact hGwf
    obtain ⟨e1, e2, e3, e4, e5, e6, e7, e8, e9⟩ :=
      wwrap_functions_reached a _ s1 _ m mn F hwf1 h
    refine ⟨by rw [e1]; exact hfound, ?_, ?_, by rw [e1]; exact e3, e4, e5, e6, e7, e8,
      fun hl => e9 hl⟩
    · simp only [State.module_entry, e2]
      exact e1.symm
    · simp only [State.module_entries, e2]
      exact count_eq_one_of_has G base hGwf.2 (has_of_find_ne_zero G base hfound)

theorem read_parameters_reads_checked (env : Env) (native_end_addr : Nat) (n : Nat) :
    ∀ (va : Nat) (node : function_node),
      ∀ r ∈ (read_parameters env native_end_addr n va node).reads, r + 4 ≤ native_end_addr := by
  induction n with
  | zero =>
    intro va node r hr
    simp [read_parameters] at hr
  | succ n ih =>
    intro va node r hr
    simp only [read_parameters, sizeof_int32_rounded] at hr
    by_cases hck : va + 4 > native_end_addr
    · simp [hck] at hr
    · simp only [hck, if_false] at hr
      cases hst : store_parameter node (env.read32 va) with
      | none =>
        simp only [hst, List.mem_singleton] at hr
        omega
      | some node1 =>
        simp only [hst, List.mem_cons] at hr
        rcases hr with hr | hr
        · omega
        · exact ih (va + 4) node1 r hr

theorem init_wf : State.init.wf := by
  refine ⟨?_, ?_⟩
  · intro G h
    cases h
  · intro p mn F h
    cases h

theorem wwrap_functions_existing (a : Allocs) (s s1 : State) (m m1 : Nat) (mn : module_node)
    (F : HashMap) (h : wwrap_functions a s m = Prepared.reached s1 m1 mn F) :
    ∀ F0, s.functions_of m = some F0 → F = F0 := by
  intro F0 hF0
  unfold State.functions_of at hF0
  unfold wwrap_functions at h
  cases hread : s.module_nodes.read m with
  | none => simp [hread] at h
  | some mn0 =>
    simp only [hread] at hF0
    simp only [hread, hF0, Prepared.reached.injEq] at h
    exact h.2.2.2.symm

theorem wwrap_modules_existing (a : Allocs) (s s1 : State) (base m : Nat) (mn : module_node)
    (F : HashMap) (hentry : s.module_entry base ≠ 0)
    (h : wwrap_modules a s base = Prepared.reached s1 m mn F) :
    m = s.module_entry base ∧ ∀ F0, s.functions_of m = some F0 → F = F0 := by
  unfold State.module_entry at hentry
  cases hG : s.g_modules with
  | none => simp [hG] at hentry
  | some G =>
    simp only [hG] at hentry
    have hs : { s with g_modules := some G } = s := by rw [← hG]
    simp only [wwrap_modules, hG, hs] at h
    rw [if_pos hentry] at h
    have hm : m = bh_hash_map_find G base := by
      unfold wwrap_functions at h
      cases hread : s.module_nodes.read (bh_hash_map_find G base) with
      | none => simp [hread] at h
      | some mn0 =>
        cases hF : mn0.functions with
        | some F0 =>
          simp only [hread, hF, Prepared.reached.injEq] at h
          exact h.2.1.symm
        | none =>
          by_cases hok : a.functions_map_ok = true
          · simp only [hread, hF, hok, if_true, Prepared.reached.injEq] at h
            exact h.2.1.symm
          · simp [hread, hF, hok] at h
    refine ⟨by simp only [State.module_entry, hG]; exact hm, ?_⟩
    rw [hm]
    exact wwrap_functions_existing a s s1 _ m mn F h

theorem wwrap_functions_returned (a : Allocs) (s : State) (m : Nat) (r : Outcome Nat)
    (h : wwrap_functions a s m = Prepared.returned r) :
    ∀ v s1, r = Outcome.ok v s1 → v = 0 := by
  intro v s1 hr
  subst hr
  unfold wwrap_functions at h
  cases hread : s.module_nodes.read m with
  | none => simp [hread] at h
  | some mn0 =>
    cases hF : mn0.functions with
    | some F0 => simp [hread, hF] at h
    | none =>
      by_cases hok : a.functions_map_ok = true
      · simp [hread, hF, hok] at h
      · simp only [hread, hF, hok, Bool.false_eq_true, if_false, Prepared.returned.injEq,
          Outcome.ok.injEq] at h
        exact h.1.symm

theorem wwrap_modules_returned (a : Allocs) (s : State) (base : Nat) (r : Outcome Nat)
    (h : wwrap_modules a s base = Prepared.returned r) :
    ∀ v s1, r = Outcome.ok v s1 → v = 0 := by
  intro v s1 hr
  unfold wwrap_modules at h
  cases hc : (match s.g_modules with
      | some G => some G
      | none => if a.modules_map_ok = true then some [] else none) with
  | none =>
    simp only [hc, Prepared.returned.injEq] at h
    rw [hr] at h
    simp only [Outcome.ok.injEq] at h
    exact h.1.symm
  | some G =>
    simp only [hc] at h
    by_cases hfound : bh_hash_map_find G base = 0
    · simp only [hfound, ne_eq, not_true_eq_false, if_false] at h
      by_cases hm0 : a.m_node = 0
      · simp only [hm0, if_true, Prepared.returned.injEq] at h
        rw [hr] at h
        simp only [Outcome.ok.injEq] at h
        exact h.1.symm
      · by_cases hgarb : a.m_node_functions = 0
        · simp only [hm0, if_false, hgarb, not_true_eq_false] at h
          exact wwrap_functions_returned a _ _ r h v s1 hr
        · simp only [hm0, if_false, hgarb, not_false_eq_true, if_true,
            Prepared.returned.injEq] at h
          rw [hr] at h
          cases h
    · simp only [ne_eq, hfound, not_false_eq_true, if_true] at h
      exact wwrap_functions_returned a _ _ r h v s1 hr

theorem read_parameters_fields (env : Env) (native_end_addr : Nat) (n : Nat) :
    ∀ (va : Nat) (node : function_node),
      (read_parameters env native_end_addr n va node).node.m_node = node.m_node
        ∧ (read_parameters env native_end_addr n va node).node.func = node.func := by
  induction n with
  | zero =>
    intro va node
    simp [read_parameters]
  | succ n ih =>
    intro va node
    simp only [read_parameters]
    split
    · exact ⟨rfl, rfl⟩
    · cases hst : store_parameter node (env.read32 va) with
      | none => exact ⟨rfl, rfl⟩
      | some node1 =>
        have hfields : node1.m_node = node.m_node ∧ node1.func = node.func := by
          unfold store_parameter at hst
          split at hst
          · cases hst
            exact ⟨rfl, rfl⟩
          · cases hst
        simp only
        rw [(ih _ node1).1, (ih _ node1).2]
        exact hfields

theorem wwrap_node_ok (env : Env) (a : Allocs) (s s1 : State)
    (native_end_addr m func return_code n va_args v : Nat) (mn : module_node) (F : HashMap)
    (hrun : wwrap_node env a s native_end_addr m func return_code n va_args mn F
      = Outcome.ok v s1) (hv : v ≠ 0) :
    (bh_hash_map_find F func ≠ 0 ∧ v = addr_native_to_app env (bh_hash_map_find F func)
        ∧ s1 = s)
      ∨ (bh_hash_map_find F func = 0 ∧ a.node ≠ 0 ∧ v = addr_native_to_app env a.node
        ∧ ∃ fn, fn.m_node = m ∧ fn.func = func
          ∧ s1 = { s with
              module_nodes := s.module_nodes.write m
                { mn with functions := some (bh_hash_map_insert F func a.node) }
              function_nodes := s.function_nodes.write a.node fn }) := by
  unfold wwrap_node at hrun
  by_cases hfound : bh_hash_map_find F func = 0
  · right
    simp only [hfound, ne_eq, not_true_eq_false, if_false] at hrun
    by_cases hnode : a.node = 0
    · simp only [hnode, if_true, Outcome.ok.injEq] at hrun
      exact absurd hrun.1.symm hv
    · simp only [hnode, if_false] at hrun
      have hfields := read_parameters_fields env native_end_addr n va_args
        (new_function_node a m func return_code)
      cases hstop : (read_parameters env native_end_addr n va_args
          (new_function_node a m func return_code)).stop with
      | done =>
        simp only [hstop, Outcome.ok.injEq] at hrun
        exact ⟨hfound, hnode, hrun.1.symm, _, hfields.1, hfields.2, hrun.2.symm⟩
      | fail =>
        simp only [hstop, Outcome.ok.injEq] at hrun
        exact absurd hrun.1.symm hv
      | overflow index =>
        simp [hstop] at hrun
  · left
    simp only [ne_eq, hfound, not_false_eq_true, if_true, Outcome.ok.injEq] at hrun
    exact ⟨hfound, hrun.1.symm, hrun.2.symm⟩

theorem mem_insert (F : HashMap) (k0 v0 k v : Nat)
    (h : (k, v) ∈ bh_hash_map_insert F k0 v0) : (k, v) = (k0, v0) ∨ (k, v) ∈ F := by
  unfold bh_hash_map_insert at h
  split at h
  · exact Or.inr h
  · simpa using h

theorem mem_remove (F : HashMap) (k0 k v : Nat) (h : (k, v) ∈ bh_hash_map_remove F k0) :
    (k, v) ∈ F := by
  induction F with
  | nil => simp [bh_hash_map_remove] at h
  | cons e rest ih =>
    obtain ⟨k1, v1⟩ := e
    simp only [bh_hash_map_remove] at h
    split at h
    · exact List.mem_cons_of_mem _ h
    · rcases List.mem_cons.1 h with h1 | h1
      · rw [h1]; exact List.mem_cons_self _ _
      · exact List.mem_cons_of_mem _ (ih h1)

theorem mem_of_find (F : HashMap) (k : Nat) (h : bh_hash_map_find F k ≠ 0) :
    ∃ k1, (k1, bh_hash_map_find F k) ∈ F ∧ wwrap_equal k1 k = true := by
  induction F with
  | nil => simp [bh_hash_map_find] at h
  | cons e rest ih =>
    obtain ⟨k1, v1⟩ := e
    by_cases hk : wwrap_equal k1 k = true
    · refine ⟨k1, ?_, hk⟩
      simp [bh_hash_map_find, hk]
    · have hk2 : wwrap_equal k1 k = false := by simpa using hk
      simp only [bh_hash_map_find, hk2, Bool.false_eq_true, if_false] at h ⊢
      obtain ⟨k2, hmem, heq⟩ := ih h
      exact ⟨k2, List.mem_cons_of_mem _ hmem, heq⟩

theorem linked_fresh_node (mods : Heap module_node) (fns : Heap function_node) (node : Nat)
    (fn0 : function_node) (hfresh : fns.read node = none)
    (hl : ∀ p mn1 F k v, mods.read p = some mn1 → mn1.functions = some F → (k, v) ∈ F →
      ∃ fn, fns.read v = some fn ∧ fn.m_node = p ∧ wwrap_equal fn.func k = true) :
    ∀ p mn1 F k v, mods.read p = some mn1 → mn1.functions = some F → (k, v) ∈ F →
      ∃ fn, (fns.write node fn0).read v = some fn ∧ fn.m_node = p
        ∧ wwrap_equal fn.func k = true := by
  intro p mn1 F k v hread hF hmem
  obtain ⟨fn, h1, h2, h3⟩ := hl p mn1 F k v hread hF hmem
  have hne : node ≠ v := by
    intro he
    rw [he] at hfresh
    rw [hfresh] at h1
    cases h1
  exact ⟨fn, by rw [heap_read_write_other fns node v fn0 hne]; exact h1, h2, h3⟩

/-- What a bind that returns a non-zero handle leaves behind. -/
theorem wwrap_wrapper_ok (env : Env) (a : Allocs) (s s1 : State)
    (module function return_code n va_args base func v : Nat)
    (hwf : s.wf)
    (hres : wwrap_resolve env module function = some (base, func))
    (hrun : wwrap_wrapper env a s module function return_code n va_args = Outcome.ok v s1)
    (hv : v ≠ 0) :
    ∃ m mn F, m ≠ 0 ∧ s1.module_entry base = m ∧ s1.module_entries base = 1
      ∧ s1.module_nodes.read m = some mn ∧ mn.functions = some F
      ∧ bh_hash_map_find F func ≠ 0
      ∧ addr_native_to_app env (bh_hash_map_find F func) = v
      ∧ s1.wf ∧ (s.linked → s.function_nodes.read a.node = none → s1.linked)
      ∧ s1.unloaded = s.unloaded
      ∧ (s.module_entry base ≠ 0 → m = s.module_entry base
          ∧ ∀ F0, s.functions_of m = some F0 →
              ∀ k, wwrap_equal func k = false → bh_hash_map_find F k = bh_hash_map_find F0 k) := by
  have hval : wwrap_validate env module function va_args = true := by
    by_contra hc
    have hf : wwrap_validate env module function va_args = false := by simpa using hc
    simp only [wwrap_wrapper, wwrap_checks_eq, hf, Bool.not_false, if_true,
      Outcome.ok.injEq] at hrun
    exact hv hrun.1.symm
  rw [wwrap_wrapper_eq_registry env a s module function return_code n va_args base func hval
    hres] at hrun
  unfold wwrap_registry at hrun
  cases hprep : wwrap_modules a s base with
  | returned r =>
    simp only [hprep] at hrun
    exact absurd (wwrap_modules_returned a s base r hprep v s1 hrun) hv
  | reached s2 m mn F =>
    simp only [hprep] at hrun
    obtain ⟨hm0, hentry, hcount, hread, hF, hwf2, hfns, _, hunl, hlink⟩ :=
      wwrap_modules_reached a s s2 base m mn F hwf hprep
    have hexist : s.module_entry base ≠ 0 → m = s.module_entry base
        ∧ ∀ F0, s.functions_of m = some F0 → F = F0 :=
      fun he => wwrap_modules_existing a s s2 base m mn F he hprep
    rcases wwrap_node_ok env a s2 s1 env.mem_end m func return_code n va_args v mn F hrun hv
      with ⟨hfound, hveq, hs⟩ | ⟨hnew, hnode, hveq, fn, hfm, hff, hs⟩
    · subst hs
      refine ⟨m, mn, F, hm0, hentry, hcount, hread, hF, hfound, hveq.symm, hwf2,
        fun hl _ => hlink hl, hunl, ?_⟩
      intro he
      obtain ⟨h1, h2⟩ := hexist he
      refine ⟨h1, ?_⟩
      intro F0 hF0 k _
      rw [h2 F0 hF0]
    · have hFwf := hwf2.2 m mn F hread hF
      have hnot : bh_hash_map_has F func = false :=
        not_has_of_find_eq_zero F func hFwf.1 hnew
      have hfind : bh_hash_map_find (bh_hash_map_insert F func a.node) func = a.node :=
        find_insert_self F func a.node hnot
      subst hs
      refine ⟨m, { mn with functions := some (bh_hash_map_insert F func a.node) },
        bh_hash_map_insert F func a.node, hm0, ?_, ?_, heap_read_write_self _ _ _, rfl, ?_, ?_,
        ⟨hwf2.1, ?_⟩, ?_, hunl, ?_⟩
      · simpa [State.module_entry] using hentry
      · simpa [State.module_entries] using hcount
      · rw [hfind]; exact hnode
      · rw [hfind]; exact hveq.symm
      · apply wf_module_write _ _ _ hwf2.2
        intro F1 hF1
        cases hF1
        exact ⟨no_null_insert F func a.node hFwf.1 hnode, unique_insert F func a.node hFwf.2⟩
      · intro hl hfresh
        have hl2 : s2.linked := hlink hl
        have hfresh2 : s2.function_nodes.read a.node = none := by rw [hfns]; exact hfresh
        apply linked_module_write _ _ _ _
          (linked_fresh_node s2.module_nodes s2.function_nodes a.node fn hfresh2 hl2)
        intro F1 k v1 hF1 hmem
        cases hF1
        rcases mem_insert F func a.node k v1 hmem with heq | hold
        · cases heq
          exact ⟨fn, heap_read_write_self _ _ _, hfm, by rw [hff]; exact wwrap_equal_self _⟩
        · obtain ⟨fn1, h1, h2, h3⟩ := hl2 m mn F k v1 hread hF hold
          have hne : a.node ≠ v1 := by
            intro he
            rw [he] at hfresh2
            rw [hfresh2] at h1
            cases h1
          exact ⟨fn1, by rw [heap_read_write_other _ _ _ _ hne]; exact h1, h2, h3⟩
      · intro he
        obtain ⟨h1, h2⟩ := hexist he
        refine ⟨h1, ?_⟩
        intro F0 hF0 k hk
        rw [find_insert_other F func k a.node hk, h2 F0 hF0]

/-! ## Unbind -/

theorem wwrap_equal_trans (a b c : Nat) (hab : wwrap_equal a b = true)
    (hbc : wwrap_equal b c = true) : wwrap_equal a c = true := by
  simp only [wwrap_equal, beq_iff_eq] at *
  rw [hab]
  exact hbc

theorem addr_round_trip (env : Env) (p v : Nat) (h : addr_native_to_app env p = v)
    (hv : v ≠ 0) : wasm_runtime_addr_app_to_native env v = p ∧ p ≠ 0 := by
  unfold addr_native_to_app at h
  unfold wasm_runtime_addr_app_to_native
  by_cases hin : env.mem_start ≤ p ∧ p < env.mem_end
  · rw [if_pos hin] at h
    have e : env.mem_start + v = p := by omega
    rw [e, if_pos hin.2]
    exact ⟨rfl, by omega⟩
  · rw [if_neg hin] at h
    exact absurd h.symm hv

theorem wunwrap_wrapper_not_last (env : Env) (s : State) (v node : Nat) (fn : function_node)
    (mn : module_node) (F : HashMap)
    (hnode : wasm_runtime_addr_app_to_native env v = node) (hn0 : node ≠ 0)
    (hfn : s.function_nodes.read node = some fn)
    (hmn : s.module_nodes.read fn.m_node = some mn) (hF : mn.functions = some F)
    (hcount : bh_hash_map_get_count (bh_hash_map_remove F fn.func) ≠ 0) :
    wunwrap_wrapper env s v
      = Outcome.ok 0
          { s with
            module_nodes := s.module_nodes.write fn.m_node
              { mn with functions := some (bh_hash_map_remove F fn.func) }
            function_nodes := s.function_nodes.release node } := by
  simp only [wunwrap_wrapper, hnode, hn0, if_false, hfn, hmn, hF, ne_eq, hcount,
    not_false_eq_true, if_true]

theorem count_ne_zero_of_find (F : HashMap) (k : Nat) (h : bh_hash_map_find F k ≠ 0) :
    bh_hash_map_get_count F ≠ 0 := by
  cases F with
  | nil => simp [bh_hash_map_find] at h
  | cons e rest => simp [bh_hash_map_get_count]

theorem init_inv : State.init.inv := by
  refine ⟨init_wf, ?_⟩
  intro p mn F k v h
  cases h

/-! ## The invariant holds in every reachable state -/

theorem inv_register (s : State) (m func node : Nat) (mn : module_node) (F : HashMap)
    (fn : function_node) (e : Option String) (hwf : s.wf) (hl : s.linked)
    (hread : s.module_nodes.read m = some mn) (hF : mn.functions = some F)
    (hfresh : s.function_nodes.read node = none) (hnode : node ≠ 0)
    (hfm : fn.m_node = m) (hff : fn.func = func) :
    State.inv
      { s with
        module_nodes := s.module_nodes.write m
          { mn with functions := some (bh_hash_map_insert F func node) }
        function_nodes := s.function_nodes.write node fn
        exception := e } := by
  have hFwf := hwf.2 m mn F hread hF
  refine ⟨⟨hwf.1, ?_⟩, ?_⟩
  · apply wf_module_write _ _ _ hwf.2
    intro F1 hF1
    cases hF1
    exact ⟨no_null_insert F func node hFwf.1 hnode, unique_insert F func node hFwf.2⟩
  · apply linked_module_write _ _ _ _
      (linked_fresh_node s.module_nodes s.function_nodes node fn hfresh hl)
    intro F1 k v1 hF1 hmem
    cases hF1
    rcases mem_insert F func node k v1 hmem with heq | hold
    · cases heq
      exact ⟨fn, heap_read_write_self _ _ _, hfm, by rw [hff]; exact wwrap_equal_self _⟩
    · obtain ⟨fn1, h1, h2, h3⟩ := hl m mn F k v1 hread hF hold
      have hne : node ≠ v1 := by
        intro he
        rw [he] at hfresh
        rw [hfresh] at h1
        cases h1
      exact ⟨fn1, by rw [heap_read_write_other _ _ _ _ hne]; exact h1, h2, h3⟩

theorem wwrap_node_inv (env : Env) (a : Allocs) (s s1 : State)
    (native_end_addr m func return_code n va_args v : Nat) (mn : module_node) (F : HashMap)
    (hrun : wwrap_node env a s native_end_addr m func return_code n va_args mn F
      = Outcome.ok v s1)
    (hinv : s.inv) (hread : s.module_nodes.read m = some mn) (hF : mn.functions = some F)
    (hfresh : s.function_nodes.read a.node = none) : s1.inv := by
  unfold wwrap_node at hrun
  by_cases hfound : bh_hash_map_find F func = 0
  · simp only [hfound, ne_eq, not_true_eq_false, if_false] at hrun
    by_cases hnode : a.node = 0
    · simp only [hnode, if_true, Outcome.ok.injEq] at hrun
      rw [← hrun.2]
      exact hinv
    · simp only [hnode, if_false] at hrun
      have hfields := read_parameters_fields env native_end_addr n va_args
        (new_function_node a m func return_code)
      cases hstop : (read_parameters env native_end_addr n va_args
          (new_function_node a m func return_code)).stop with
      | done =>
        simp only [hstop, Outcome.ok.injEq] at hrun
        rw [← hrun.2]
        exact inv_register s m func a.node mn F _ s.exception hinv.1 hinv.2 hread hF hfresh
          hnode hfields.1 hfields.2
      | fail =>
        simp only [hstop, Outcome.ok.injEq] at hrun
        rw [← hrun.2]
        exact inv_register s m func a.node mn F _ _ hinv.1 hinv.2 hread hF hfresh
          hnode hfields.1 hfields.2
      | overflow index =>
        simp [hstop] at hrun
  · simp only [ne_eq, hfound, not_false_eq_true, if_true, Outcome.ok.injEq] at hrun
    rw [← hrun.2]
    exact hinv

theorem wwrap_functions_returned_state (a : Allocs) (s s1 : State) (m v : Nat)
    (h : wwrap_functions a s m = Prepared.returned (Outcome.ok v s1)) : s1 = s := by
  unfold wwrap_functions at h
  cases hread : s.module_nodes.read m with
  | none => simp [hread] at h
  | some mn0 =>
    cases hF : mn0.functions with
    | some F0 => simp [hread, hF] at h
    | none =>
      by_cases hok : a.functions_map_ok = true
      · simp [hread, hF, hok] at h
      · simp only [hread, hF, hok, Bool.false_eq_true, if_false, Prepared.returned.injEq,
          Outcome.ok.injEq] at h
        exact h.2.symm

theorem inv_set_modules (s : State) (G : HashMap) (hinv : s.inv)
    (hG : HashMap_no_null G = true ∧ HashMap_unique G = true) :
    State.inv { s with g_modules := some G } := by
  refine ⟨⟨?_, hinv.1.2⟩, hinv.2⟩
  intro G1 hG1
  cases hG1
  exact hG

theorem inv_new_module (s : State) (G : HashMap) (base m gb : Nat) (hinv : s.inv)
    (hG : HashMap_no_null G = true ∧ HashMap_unique G = true) (hm : m ≠ 0) :
    State.inv
      { s with
        g_modules := some (bh_hash_map_insert G base m)
        module_nodes := s.module_nodes.write m { functions := none, base := gb } } := by
  refine ⟨⟨?_, ?_⟩, ?_⟩
  · intro G1 hG1
    cases hG1
    exact ⟨no_null_insert G base m hG.1 hm, unique_insert G base m hG.2⟩
  · apply wf_module_write _ _ _ hinv.1.2
    intro F1 hF1
    cases hF1
  · apply linked_module_write _ _ _ _ hinv.2
    intro F1 k v hF1
    cases hF1

theorem wwrap_modules_returned_inv (a : Allocs) (s s1 : State) (base v : Nat)
    (h : wwrap_modules a s base = Prepared.returned (Outcome.ok v s1)) (hinv : s.inv) :
    s1.inv := by
  unfold wwrap_modules at h
  cases hg : s.g_modules with
  | none =>
    by_cases hok : a.modules_map_ok = true
    · simp only [hg, hok, if_true, bh_hash_map_find, ne_eq, not_true_eq_false, if_false] at h
      by_cases hm0 : a.m_node = 0
      · simp only [hm0, if_true, Prepared.returned.injEq, Outcome.ok.injEq] at h
        rw [← h.2]
        exact inv_set_modules s [] hinv ⟨rfl, rfl⟩
      · by_cases hgarb : a.m_node_functions = 0
        · simp only [hm0, if_false, hgarb, not_true_eq_false] at h
          rw [wwrap_functions_returned_state a _ s1 _ v h]
          exact inv_new_module s [] base a.m_node a.m_node_base hinv ⟨rfl, rfl⟩ hm0
        · simp [hm0, hgarb] at h
    · simp only [hg, hok, Bool.false_eq_true, if_false, Prepared.returned.injEq,
        Outcome.ok.injEq] at h
      rw [← h.2]
      exact hinv
  | some G =>
    have hGwf := hinv.1.1 G hg
    simp only [hg] at h
    by_cases hfound : bh_hash_map_find G base = 0
    · simp only [hfound, ne_eq, not_true_eq_false, if_false] at h
      by_cases hm0 : a.m_node = 0
      · simp only [hm0, if_true, Prepared.returned.injEq, Outcome.ok.injEq] at h
        rw [← h.2]
        exact inv_set_modules s G hinv hGwf
      · by_cases hgarb : a.m_node_functions = 0
        · simp only [hm0, if_false, hgarb, not_true_eq_false] at h
          rw [wwrap_functions_returned_state a _ s1 _ v h]
          exact inv_new_module s G base a.m_node a.m_node_base hinv hGwf hm0
        · simp [hm0, hgarb] at h
    · simp only [ne_eq, hfound, not_false_eq_true, if_true] at h
      rw [wwrap_functions_returned_state a _ s1 _ v h]
      exact inv_set_modules s G hinv hGwf

theorem wwrap_wrapper_inv (env : Env) (a : Allocs) (s s1 : State)
    (module function return_code n va_args v : Nat) (hinv : s.inv)
    (hfresh : s.function_nodes.read a.node = none)
    (hrun : wwrap_wrapper env a s module function return_code n va_args = Outcome.ok v s1) :
    s1.inv := by
  unfold wwrap_wrapper at hrun
  simp only [wwrap_checks_eq] at hrun
  by_cases hval : wwrap_validate env module function va_args = true
  · simp only [hval, Bool.not_true, Bool.false_eq_true, if_false, if_true] at hrun
    cases hr : wasm_runtime_get_native_addr_range env va_args with
    | none =>
      simp only [hr, Outcome.ok.injEq] at hrun
      rw [← hrun.2]
      exact ⟨⟨hinv.1.1, hinv.1.2⟩, hinv.2⟩
    | some native_end_addr =>
      simp only [hr] at hrun
      cases hres : wwrap_resolve env module function with
      | none =>
        simp only [hres, Outcome.ok.injEq] at hrun
        rw [← hrun.2]
        exact hinv
      | some bf =>
        obtain ⟨base, func⟩ := bf
        simp only [hres, wwrap_registry] at hrun
        cases hprep : wwrap_modules a s base with
        | returned r =>
          simp only [hprep] at hrun
          rw [hrun] at hprep
          exact wwrap_modules_returned_inv a s s1 base v hprep hinv
        | reached s2 m mn F =>
          simp only [hprep] at hrun
          obtain ⟨_, _, _, hread, hF, hwf2, hfns, _, _, hlink⟩ :=
            wwrap_modules_reached a s s2 base m mn F hinv.1 hprep
          exact wwrap_node_inv env a s2 s1 native_end_addr m func return_code n va_args v mn F
            hrun ⟨hwf2, hlink hinv.2⟩ hread hF (by rw [hfns]; exact hfresh)
  · have hf : wwrap_validate env module function va_args = false := by simpa using hval
    simp only [hf, Bool.not_false, if_true, Bool.false_eq_true, if_false,
      Outcome.ok.injEq] at hrun
    rw [← hrun.2]
    exact ⟨⟨hinv.1.1, hinv.1.2⟩, hinv.2⟩

theorem has_of_mem (F : HashMap) (k v k0 : Nat) (hmem : (k, v) ∈ F)
    (hk : wwrap_equal k k0 = true) : bh_hash_map_has F k0 = true := by
  induction F with
  | nil => cases hmem
  | cons e rest ih =>
    obtain ⟨k1, v1⟩ := e
    rcases List.mem_cons.1 hmem with h1 | h1
    · cases h1
      simp [bh_hash_map_has, hk]
    · simp [bh_hash_map_has, ih h1]

theorem not_has_remove_self (F : HashMap) (k0 : Nat) (hu : HashMap_unique F = true) :
    bh_hash_map_has (bh_hash_map_remove F k0) k0 = false := by
  induction F with
  | nil => rfl
  | cons e rest ih =>
    obtain ⟨k1, v1⟩ := e
    simp only [HashMap_unique, Bool.and_eq_true, Bool.not_eq_true'] at hu
    by_cases hk : wwrap_equal k1 k0 = true
    · simp only [bh_hash_map_remove, hk, if_true]
      rw [← has_congr rest k1 k0 hk]
      exact hu.1
    · have hk2 : wwrap_equal k1 k0 = false := by simpa using hk
      simp [bh_hash_map_remove, hk2, bh_hash_map_has, ih hu.2]

theorem wunwrap_wrapper_inv (env : Env) (s s1 : State) (node_addr : Nat) (v : Int)
    (hinv : s.inv) (hrun : wunwrap_wrapper env s node_addr = Outcome.ok v s1) : s1.inv := by
  unfold wunwrap_wrapper at hrun
  by_cases hn0 : wasm_runtime_addr_app_to_native env node_addr = 0
  · simp only [hn0, if_true, Outcome.ok.injEq] at hrun
    rw [← hrun.2]
    exact hinv
  · simp only [hn0, if_false] at hrun
    cases hfn : s.function_nodes.read (wasm_runtime_addr_app_to_native env node_addr) with
    | none => simp [hfn] at hrun
    | some fn =>
      simp only [hfn] at hrun
      cases hmn : s.module_nodes.read fn.m_node with
      | none => simp [hmn] at hrun
      | some mn =>
        simp only [hmn] at hrun
        cases hF : mn.functions with
        | none => simp [hF] at hrun
        | some F =>
          simp only [hF] at hrun
          have hFwf := hinv.1.2 fn.m_node mn F hmn hF
          -- no entry of a live map, after the removal, names the released node
          have hkeep : ∀ p mn1 F1 k v1,
              (s.module_nodes.write fn.m_node
                { mn with functions := some (bh_hash_map_remove F fn.func) }).read p = some mn1 →
              mn1.functions = some F1 → (k, v1) ∈ F1 →
              ∃ fn1, (s.function_nodes.release
                  (wasm_runtime_addr_app_to_native env node_addr)).read v1 = some fn1
                ∧ fn1.m_node = p ∧ wwrap_equal fn1.func k = true := by
            intro p mn1 F1 k v1 hread hF1 hmem
            by_cases hp : fn.m_node = p
            · subst hp
              rw [heap_read_write_self] at hread
              cases hread
              cases hF1
              obtain ⟨fn1, h1, h2, h3⟩ :=
                hinv.2 fn.m_node mn F k v1 hmn hF (mem_remove F fn.func k v1 hmem)
              have hne : wasm_runtime_addr_app_to_native env node_addr ≠ v1 := by
                intro he
                rw [← he, hfn] at h1
                cases h1
                have hhas := has_of_mem _ k _ fn.func hmem
                  (by rw [wwrap_equal_symm]; exact h3)
                rw [not_has_remove_self F fn.func hFwf.2] at hhas
                cases hhas
              exact ⟨fn1, by rw [heap_read_release_other _ _ _ hne]; exact h1, h2, h3⟩
            · rw [heap_read_write_other _ _ _ _ hp] at hread
              obtain ⟨fn1, h1, h2, h3⟩ := hinv.2 p mn1 F1 k v1 hread hF1 hmem
              have hne : wasm_runtime_addr_app_to_native env node_addr ≠ v1 := by
                intro he
                rw [← he, hfn] at h1
                cases h1
                exact hp h2
              exact ⟨fn1, by rw [heap_read_release_other _ _ _ hne]; exact h1, h2, h3⟩
          have hwfm : ∀ p mn1 F1,
              (s.module_nodes.write fn.m_node
                { mn with functions := some (bh_hash_map_remove F fn.func) }).read p = some mn1 →
              mn1.functions = some F1 →
              HashMap_no_null F1 = true ∧ HashMap_unique F1 = true := by
            apply wf_module_write _ _ _ hinv.1.2
            intro F1 hF1
            cases hF1
            exact ⟨no_null_remove F fn.func hFwf.1, unique_remove F fn.func hFwf.2⟩
          by_cases hcount : bh_hash_map_get_count (bh_hash_map_remove F fn.func) = 0
          · simp only [hcount, ne_eq, not_true_eq_false, if_false] at hrun
            cases hG : s.g_modules with
            | none => simp [hG] at hrun
            | some G =>
              have hGwf := hinv.1.1 G hG
              simp only [hG, Outcome.ok.injEq] at hrun
              rw [← hrun.2]
              refine ⟨⟨?_, ?_⟩, ?_⟩
              · intro G1 hG1
                cases hG1
                exact ⟨no_null_remove G mn.base hGwf.1, unique_remove G mn.base hGwf.2⟩
              · exact wf_module_release _ _ hwfm
              · intro p mn1 F1 k v1 hread hF1 hmem
                have hp : fn.m_node ≠ p := by
                  intro he
                  simp only [he, heap_read_release_self] at hread
                  cases hread
                simp only [heap_read_release_other _ _ _ hp] at hread
                exact hkeep p mn1 F1 k v1 hread hF1 hmem
          · simp only [ne_eq, hcount, not_false_eq_true, if_true, Outcome.ok.injEq] at hrun
            rw [← hrun.2]
            exact ⟨⟨hinv.1.1, hwfm⟩, hkeep⟩

theorem reachable_inv (env : Env) (s : State) (h : Reachable env s) : s.inv := by
  induction h with
  | init => exact init_inv
  | bind a s s1 module function return_code parameter_count va_args v _ hfresh hrun ih =>
    exact wwrap_wrapper_inv env a s s1 module function return_code parameter_count va_args v ih
      hfresh hrun
  | unbind s s1 node_addr v _ hrun ih =>
    exact wunwrap_wrapper_inv env s s1 node_addr v ih hrun

/-! ## Evaluations at concrete inputs -/

theorem exBound_is_bind :
    wwrap_wrapper exEnv (exAllocs 0x18000) State.init 0x10010 0x10020 3 2 0x10100
      = Outcome.ok 0x8000 exBound := by
  decide

/-! ## C2 : a bounds failure inside the read loop -/

/-- C2, the code at the failing input: binding `("m", "f")` with two
parameters and the cursor on the last word of guest memory reads one code,
fails `CHECK_VA_ARG` on the second, sets the exception and returns 0, but the
module entry and the partly written function binding inserted during the call
stay registered. -/
theorem wwrap_bounds_failure_keeps_binding :
    ∃ s, wwrap_wrapper exEnv (exAllocs 0x18000) State.init 0x10010 0x10020 3 2 0x1FFFC
          = Outcome.ok 0 s
      ∧ s.exception = some "out of bounds memory access"
      ∧ State.init.module_entry 0x70000000 = 0
      ∧ s.module_entry 0x70000000 = 0x500000
      ∧ s.binding 0x70000000 0x70001000 = 0x18000
      ∧ (s.function_nodes.read 0x18000).map (fun n => n.parameter_count) = some 2
      ∧ s ≠ State.init :=
  ⟨_, rfl, by decide, by decide, by decide, by decide, by decide, by decide⟩

/-! ## C3 : unbinding the last binding of a module -/

/-- C3, the code at the failing input: the `module_node` allocated by bind
never has its `base` field written, so when its only binding is unbound the
key removed from `g_modules` and the handle given to `FreeLibrary` are the
indeterminate contents of that field (here 0), not the module handle
`0x70000000`: the entry stays in `g_modules`, pointing to the freed block. -/
theorem wunwrap_last_binding_keeps_module_entry :
    wwrap_wrapper exEnv (exAllocs 0x18000) State.init 0x10010 0x10020 3 2 0x10100
        = Outcome.ok 0x8000 exBound
      ∧ exBound.module_entries 0x70000000 = 1
      ∧ wunwrap_wrapper exEnv exBound 0x8000 = Outcome.ok 0 exUnbound
      ∧ exUnbound.module_entry 0x70000000 = 0x500000
      ∧ exUnbound.module_entries 0x70000000 = 1
      ∧ exUnbound.module_nodes.read 0x500000 = none
      ∧ exUnbound.unloaded = [0] :=
  ⟨by decide, by decide, by decide, by decide, by decide, by decide, by decide⟩

/-! ## C4 : unbinding a handle that names no live binding -/

/-- C4, the code at the failing input: the first unbind of a bound handle
returns 0; the second unbind of the same handle, and the unbind of a handle
that bind never returned, pass the only check (`node` is not `NULL`) and read
a `function_node` that is not live: undefined behaviour, not the result -1. -/
theorem wunwrap_twice_reads_freed_node :
    wwrap_wrapper exEnv (exAllocs 0x18000) State.init 0x10010 0x10020 3 2 0x10100
        = Outcome.ok 0x8000 exBound
      ∧ wunwrap_wrapper exEnv exBound 0x8000 = Outcome.ok 0 exUnbound
      ∧ wunwrap_wrapper exEnv exUnbound 0x8000
          = Outcome.undefined (Fault.invalid_pointer 0x18000)
      ∧ wunwrap_wrapper exEnv exUnbound 0x8000 ≠ Outcome.ok (-1) exUnbound
      ∧ wunwrap_wrapper exEnv State.init 0x100
          = Outcome.undefined (Fault.invalid_pointer 0x10100) :=
  ⟨by decide, by decide, by decide, by decide, by decide⟩

/-! ## C5 : more parameters than the array holds -/

/-- C5, the code at the failing input: with `parameter_count = 17` there is no
capacity check.  With 17 readable words the loop stores slot 16 of the
16-slot array (an out-of-bounds write, after the binding was inserted); with
the cursor two words before the end of memory the call returns 0 with the
exception set and the binding registered. -/
theorem wwrap_seventeen_parameters_overflows :
    wwrap_wrapper exEnv (exAllocs 0x18000) State.init 0x10010 0x10020 3 17 0x10100
        = Outcome.undefined (Fault.out_of_bounds_write 16)
      ∧ ∃ s, wwrap_wrapper exEnv (exAllocs 0x18000) State.init 0x10010 0x10020 3 17 0x1FFF8
            = Outcome.ok 0 s
          ∧ s.binding 0x70000000 0x70001000 = 0x18000
          ∧ s.exception = some "out of bounds memory access" :=
  ⟨by decide, _, rfl, by decide, by decide⟩

/-! ## C6 : the three address checks at entry -/

theorem validate_native_addr_fst (env : Env) (s : State) (addr size : Nat) :
    (validate_native_addr env s addr size).1 = native_addr_in_bounds env addr size := by
  unfold validate_native_addr
  split <;> simp [*]

/-- C6: when the module-name address, the function identifier (when it is an
address, greater than `0xFFFF`) or the cursor fails the bounds validation for
one 32-bit word, `wwrap_wrapper` returns 0 in a state whose exception is
"out of bounds memory access", everything else as before. -/
theorem wwrap_wrapper_invalid_address (env : Env) (a : Allocs) (s : State)
    (module function return_code n va_args : Nat)
    (h : (validate_native_addr env s module sizeof_int32).1 = false
      ∨ (function > 0xFFFF ∧ (validate_native_addr env s function sizeof_int32).1 = false)
      ∨ (validate_native_addr env s va_args sizeof_int32).1 = false) :
    wwrap_wrapper env a s module function return_code n va_args
      = Outcome.ok 0 { s with exception := some "out of bounds memory access" } := by
  simp only [validate_native_addr_fst] at h
  have hf : wwrap_validate env module function va_args = false := by
    unfold wwrap_validate
    rcases h with h1 | ⟨hgt, h2⟩ | h3
    · simp [h1]
    · simp [hgt, h2]
    · simp [h3]
  simp [wwrap_wrapper, wwrap_checks_eq, hf]

theorem wwrap_wrapper_invalid_address_witness :
    wwrap_wrapper exEnv (exAllocs 0x18000) State.init 0x1FFFE 0x10020 3 2 0x10100
        = Outcome.ok 0 { State.init with exception := some "out of bounds memory access" }
      ∧ wwrap_wrapper exEnv (exAllocs 0x18000) State.init 0x10010 0x1FFFE 3 2 0x10100
        = Outcome.ok 0 { State.init with exception := some "out of bounds memory access" }
      ∧ wwrap_wrapper exEnv (exAllocs 0x18000) State.init 0x10010 0x10020 3 2 0x1FFFE
        = Outcome.ok 0 { State.init with exception := some "out of bounds memory access" } :=
  ⟨wwrap_wrapper_invalid_address exEnv (exAllocs 0x18000) State.init 0x1FFFE 0x10020 3 2 0x10100
      (Or.inl (by decide)),
   wwrap_wrapper_invalid_address exEnv (exAllocs 0x18000) State.init 0x10010 0x1FFFE 3 2 0x10100
      (Or.inr (Or.inl ⟨by decide, by decide⟩)),
   wwrap_wrapper_invalid_address exEnv (exAllocs 0x18000) State.init 0x10010 0x10020 3 2 0x1FFFE
      (Or.inr (Or.inr (by decide)))⟩

/-! ## C8 : calloc -/

/-- C8: for 32-bit `nmemb` and `size` whose exact product is at least `2^32`,
`calloc_wrapper` returns 0, never calls `module_malloc` and performs no
`memset`; the 64-bit product is the exact product. -/
theorem calloc_wrapper_rejects_large (module_malloc : Nat → Nat × Nat) (nmemb size : Nat)
    (hn : nmemb < 2 ^ 32) (hs : size < 2 ^ 32) (h : 2 ^ 32 ≤ nmemb * size) :
    calloc_wrapper module_malloc nmemb size = { ret := 0, malloc_calls := [], memsets := [] }
      ∧ u64 (u64 nmemb * u64 size) = nmemb * size := by
  have hn64 : u64 nmemb = nmemb := Nat.mod_eq_of_lt (by omega)
  have hs64 : u64 size = size := Nat.mod_eq_of_lt (by omega)
  have hprod : nmemb * size < 2 ^ 64 := by
    have h1 : nmemb * size ≤ 2 ^ 32 * 2 ^ 32 := Nat.mul_le_mul (le_of_lt hn) (le_of_lt hs)
    have h2 : nmemb * size ≠ 2 ^ 32 * 2 ^ 32 := by
      intro he
      have : nmemb * size < 2 ^ 32 * 2 ^ 32 :=
        Nat.mul_lt_mul_of_lt_of_le hn (le_of_lt hs) (by omega)
      omega
    norm_num at h1 h2 ⊢
    omega
  have htot : u64 (u64 nmemb * u64 size) = nmemb * size := by
    rw [hn64, hs64]
    exact Nat.mod_eq_of_lt hprod
  refine ⟨?_, htot⟩
  unfold calloc_wrapper
  simp only [htot]
  have : nmemb * size ≥ UINT32_MAX := by
    unfold UINT32_MAX
    norm_num at h ⊢
    omega
  simp [this]

theorem calloc_wrapper_rejects_large_witness :
    65536 < 2 ^ 32 ∧ 2 ^ 32 ≤ 65536 * 65536
      ∧ calloc_wrapper (fun n => (n, n)) 65536 65536
          = { ret := 0, malloc_calls := [], memsets := [] }
      ∧ u64 (u64 65536 * u64 65536) = 65536 * 65536 :=
  ⟨by norm_num, by norm_num,
   calloc_wrapper_rejects_large (fun n => (n, n)) 65536 65536 (by norm_num) (by norm_num)
    (by norm_num)⟩

/-! ## C9 : invoke -/

/-- C9 refuted as stated: for the live binding `0x8000` of the native function
at `0x70001000` (return kind int32, two int32 parameters), which maps the
arguments 3 and 4 to 7, `wcall_wrapper` returns 0 and not 7. -/
theorem wcall_wrapper_not_native_result :
    exBound.binding 0x70000000 0x70001000 = 0x18000
      ∧ addr_native_to_app exEnv 0x18000 = 0x8000
      ∧ exEnv.call_native 0x70001000 [3, 4] = 7
      ∧ wcall_wrapper exEnv exBound 0x8000 0x10100 = Outcome.ok 0 exBound
      ∧ wcall_wrapper exEnv exBound 0x8000 0x10100
          ≠ Outcome.ok (exEnv.call_native 0x70001000 [3, 4]) exBound :=
  ⟨by decide, by decide, by decide, by decide, by decide⟩

/-- C9 as amended: for every handle and every argument stream whose cursor
passes the bounds validation, `wcall_wrapper` returns 0 and leaves the state,
registry and exception included, as it was; so whenever the native function
maps the arguments to a non-zero value, the result differs from it. -/
theorem wcall_wrapper_returns_zero (env : Env) (s : State) (ref_idx va_args : Nat)
    (hstream : (validate_native_addr env s va_args sizeof_int32).1 = true) :
    wcall_wrapper env s ref_idx va_args = Outcome.ok 0 s
      ∧ ∀ func args, env.call_native func args ≠ 0 →
          wcall_wrapper env s ref_idx va_args ≠ Outcome.ok (env.call_native func args) s := by
  have hb : native_addr_in_bounds env va_args sizeof_int32 = true := by
    rw [← validate_native_addr_fst env s]; exact hstream
  have hrun : wcall_wrapper env s ref_idx va_args = Outcome.ok 0 s := by
    simp [wcall_wrapper, validate_native_addr, hb]
  refine ⟨hrun, ?_⟩
  intro func args hne he
  rw [hrun, Outcome.ok.injEq] at he
  exact hne (by exact_mod_cast he.1.symm)

theorem wcall_wrapper_returns_zero_witness :
    wcall_wrapper exEnv exBound 0x8000 0x10100 = Outcome.ok 0 exBound
      ∧ ∀ func args, exEnv.call_native func args ≠ 0 →
          wcall_wrapper exEnv exBound 0x8000 0x10100
            ≠ Outcome.ok (exEnv.call_native func args) exBound :=
  wcall_wrapper_returns_zero exEnv exBound 0x8000 0x10100 (by decide)

/-! ## C10 : the signature stored by a bind that creates a binding -/

/-- C10, the code at the failing input: a bind that creates a new binding with
`parameter_count = 16`, within the capacity of 16, and 16 readable words does
not store slots 1..16: the array has 16 slots and slot 0 holds the return
code, so after the binding is inserted the 16th code is written to
`parameters[16]`, outside the array. -/
theorem wwrap_sixteen_parameters_overflows :
    wwrap_wrapper exEnv (exAllocs 0x18000) State.init 0x10010 0x10020 3 16 0x10100
        = Outcome.undefined (Fault.out_of_bounds_write 16)
      ∧ 0x10100 + 4 * 16 ≤ exEnv.mem_end := by
  decide

/-- The signature stored when the codes fit: in every reachable state, a bind
whose addresses validate, whose names resolve to `base` and `func`, which
reaches the lookup of `func` with module entry `m_node` and finds no binding,
whose node allocation succeeds, with `n + 1 ≤ 16` and `n` words of stream
before the end of guest memory, returns the handle of the new node; the
stored node is registered for `func` under the module entry, has `func` and
`m_node` as given, slot 0 the return code, slots `1..n` the first `n` stream
words in order, count `n + 1`; the cursors read are `va_args + 4 * i`, and
every read happens at a cursor with `cursor + 4` not beyond the end of memory. -/
theorem wwrap_wrapper_stores_signature (env : Env) (a : Allocs) (s s1 : State)
    (module function return_code n va_args base func m_node : Nat) (mn : module_node)
    (F : HashMap) (hreach : Reachable env s)
    (hval : wwrap_validate env module function va_args = true)
    (hres : wwrap_resolve env module function = some (base, func))
    (hprep : wwrap_modules a s base = Prepared.reached s1 m_node mn F)
    (hnew : bh_hash_map_find F func = 0) (hnode : a.node ≠ 0)
    (hcap : n + 1 ≤ 16) (hstream : va_args + 4 * n ≤ env.mem_end) :
    ∃ s2 fn,
      wwrap_wrapper env a s module function return_code n va_args
          = Outcome.ok (addr_native_to_app env a.node) s2
        ∧ s2.module_entry base = m_node
        ∧ s2.binding base func = a.node
        ∧ s2.function_nodes.read a.node = some fn
        ∧ fn.func = func ∧ fn.m_node = m_node
        ∧ fn.parameters[0]? = some (u32 return_code)
        ∧ (∀ i, i < n → fn.parameters[i + 1]? = some (u32 (env.read32 (va_args + 4 * i))))
        ∧ fn.parameter_count = n + 1
        ∧ (read_parameters env env.mem_end n va_args
              (new_function_node a m_node func return_code)).reads
            = (List.range n).map (fun i => va_args + 4 * i)
        ∧ ∀ r ∈ (read_parameters env env.mem_end n va_args
              (new_function_node a m_node func return_code)).reads, r + 4 ≤ env.mem_end := by
  have hwf : s.wf := (reachable_inv env s hreach).1
  obtain ⟨hm0, hentry, _, hread, hF, hwf1, _, _, _, _⟩ :=
    wwrap_modules_reached a s s1 base m_node mn F hwf hprep
  obtain ⟨l1, l2, l3, l4, l5, l6, l7, l8⟩ :=
    read_parameters_spec env env.mem_end n va_args (new_function_node a m_node func return_code)
      (new_function_node_length a m_node func return_code)
      (by simp only [new_function_node]; omega) hstream
  have hnot : bh_hash_map_has F func = false :=
    not_has_of_find_eq_zero F func (hwf1.2 m_node mn F hread hF).1 hnew
  refine ⟨{ s1 with
          module_nodes := s1.module_nodes.write m_node
            { mn with functions := some (bh_hash_map_insert F func a.node) }
          function_nodes := s1.function_nodes.write a.node
            (read_parameters env env.mem_end n va_args
              (new_function_node a m_node func return_code)).node },
      (read_parameters env env.mem_end n va_args
        (new_function_node a m_node func return_code)).node,
      ?_, ?_, ?_, ?_, l3, l2, ?_, ?_, ?_, l8, ?_⟩
  · rw [wwrap_wrapper_eq_registry env a s module function return_code n va_args base func
      hval hres]
    simp only [wwrap_registry, hprep]
    exact wwrap_node_new env a s1 env.mem_end m_node func return_code n va_args mn F hnew hnode
      hcap hstream
  · simpa [State.module_entry] using hentry
  · have he : State.module_entry
        { s1 with
          module_nodes := s1.module_nodes.write m_node
            { mn with functions := some (bh_hash_map_insert F func a.node) }
          function_nodes := s1.function_nodes.write a.node
            (read_parameters env env.mem_end n va_args
              (new_function_node a m_node func return_code)).node } base = m_node := by
      simpa [State.module_entry] using hentry
    simp only [State.binding, he, State.functions_of, heap_read_write_self]
    exact find_insert_self F func a.node hnot
  · exact heap_read_write_self _ _ _
  · have := l6 0 (by simp [new_function_node])
    rw [this]
    simp [new_function_node]
  · intro i hi
    have := l7 i hi
    simp only [new_function_node] at this ⊢
    rw [Nat.add_comm i 1]
    exact this
  · rw [l4]
    simp only [new_function_node]
    omega
  · exact read_parameters_reads_checked env env.mem_end n va_args _

theorem wwrap_wrapper_stores_signature_witness :
    wwrap_modules (exAllocs 0x18000) State.init 0x70000000
        = Prepared.reached
            { g_modules := some [(0x70000000, 0x500000)]
              module_nodes := [(0x500000, { functions := some [], base := 0 })]
              function_nodes := []
              exception := none
              unloaded := [] }
            0x500000 { functions := some [], base := 0 } []
      ∧ ∃ s2 fn,
        wwrap_wrapper exEnv (exAllocs 0x18000) State.init 0x10010 0x10020 3 2 0x10100
            = Outcome.ok (addr_native_to_app exEnv (exAllocs 0x18000).node) s2
          ∧ s2.module_entry 0x70000000 = 0x500000
          ∧ s2.binding 0x70000000 0x70001000 = (exAllocs 0x18000).node
          ∧ s2.function_nodes.read (exAllocs 0x18000).node = some fn
          ∧ fn.func = 0x70001000 ∧ fn.m_node = 0x500000
          ∧ fn.parameters[0]? = some (u32 3)
          ∧ (∀ i, i < 2 → fn.parameters[i + 1]? = some (u32 (exEnv.read32 (0x10100 + 4 * i))))
          ∧ fn.parameter_count = 2 + 1
          ∧ (read_parameters exEnv exEnv.mem_end 2 0x10100
                (new_function_node (exAllocs 0x18000) 0x500000 0x70001000 3)).reads
              = (List.range 2).map (fun i => 0x10100 + 4 * i)
          ∧ ∀ r ∈ (read_parameters exEnv exEnv.mem_end 2 0x10100
                (new_function_node (exAllocs 0x18000) 0x500000 0x70001000 3)).reads,
              r + 4 ≤ exEnv.mem_end :=
  ⟨by decide,
   wwrap_wrapper_stores_signature exEnv (exAllocs 0x18000) State.init
    { g_modules := some [(0x70000000, 0x500000)]
      module_nodes := [(0x500000, { functions := some [], base := 0 })]
      function_nodes := []
      exception := none
      unloaded := [] }
    0x10010 0x10020 3 2 0x10100 0x70000000 0x70001000 0x500000
    { functions := some [], base := 0 } [] (Reachable.init)
    (by decide) (by decide) (by decide) (by decide) (by decide) (by decide) (by decide)⟩

/-! ## C1 : binding the same pair again -/

/-- C1 refuted as stated: after `("m", "f")` is bound with handle `0x8000`, a
second bind of the same pair whose argument stream cursor `0x1FFFE` has fewer
than four bytes of guest memory left is stopped by the address checks at
entry and returns 0, not the handle. -/
theorem wwrap_rebind_invalid_cursor_returns_zero :
    wwrap_wrapper exEnv (exAllocs 0x18000) State.init 0x10010 0x10020 3 2 0x10100
        = Outcome.ok 0x8000 exBound
      ∧ wwrap_resolve exEnv 0x10010 0x10020 = some (0x70000000, 0x70001000)
      ∧ wwrap_wrapper exEnv (exAllocs 0x18100) exBound 0x10010 0x10020 3 2 0x1FFFE
        = Outcome.ok 0 { exBound with exception := some "out of bounds memory access" } := by
  decide

/-- C1 as amended: in every reachable state, when a bind of names resolving to
`base` and `func` returns a non-zero handle, every later bind whose three
addresses pass the entry checks and whose names resolve to the same `base`
and `func`, with any return kind, parameter count, stream and allocator
results, returns the same handle and leaves the whole state unchanged; the
registry holds one module entry for `base` and one binding for `func`, whose
handle is the one returned. -/
theorem wwrap_wrapper_idempotent (env : Env) (a a2 : Allocs) (s s1 : State)
    (module function return_code n va_args module2 function2 return_code2 n2 va_args2 : Nat)
    (base func v : Nat) (hreach : Reachable env s)
    (hres : wwrap_resolve env module function = some (base, func))
    (hfirst : wwrap_wrapper env a s module function return_code n va_args = Outcome.ok v s1)
    (hv : v ≠ 0)
    (hval2 : wwrap_validate env module2 function2 va_args2 = true)
    (hres2 : wwrap_resolve env module2 function2 = some (base, func)) :
    wwrap_wrapper env a2 s1 module2 function2 return_code2 n2 va_args2 = Outcome.ok v s1
      ∧ s1.module_entries base = 1
      ∧ s1.binding_entries base func = 1
      ∧ addr_native_to_app env (s1.binding base func) = v := by
  obtain ⟨m, mn, F, hm0, hentry, hcount, hread, hF, hfound, hhandle, hwf1, _, _, _⟩ :=
    wwrap_wrapper_ok env a s s1 module function return_code n va_args base func v
      (reachable_inv env s hreach).1 hres hfirst hv
  have hfo : s1.functions_of (s1.module_entry base) = some F := by
    simp only [State.functions_of, hentry, hread, hF]
  refine ⟨?_, hcount, ?_, ?_⟩
  · rw [wwrap_wrapper_eq_registry env a2 s1 module2 function2 return_code2 n2 va_args2 base func
      hval2 hres2]
    simp only [wwrap_registry, wwrap_modules_found a2 s1 base m mn F hentry hm0 hread hF]
    rw [wwrap_node_found env a2 s1 env.mem_end m func return_code2 n2 va_args2 mn F hfound,
      hhandle]
  · simp only [State.binding_entries, hfo]
    exact count_eq_one_of_has F func (hwf1.2 m mn F hread hF).2
      (has_of_find_ne_zero F func hfound)
  · simp only [State.binding, hfo]
    exact hhandle

theorem wwrap_wrapper_idempotent_witness :
    wwrap_wrapper exEnv (exAllocs 0x18100) exBound 0x10010 0x10020 4 5 0x1FFFC
        = Outcome.ok 0x8000 exBound
      ∧ exBound.module_entries 0x70000000 = 1
      ∧ exBound.binding_entries 0x70000000 0x70001000 = 1
      ∧ addr_native_to_app exEnv (exBound.binding 0x70000000 0x70001000) = 0x8000 :=
  wwrap_wrapper_idempotent exEnv (exAllocs 0x18000) (exAllocs 0x18100) State.init exBound
    0x10010 0x10020 3 2 0x10100 0x10010 0x10020 4 5 0x1FFFC 0x70000000 0x70001000 0x8000
    (Reachable.init) (by decide) (by decide) (by decide) (by decide) (by decide)

/-! ## C7 : two bindings of one module, one unbound -/

/-- C7 refuted as stated: the registry compares keys by their `(uint32)` cast.
The distinct addresses `0x70001000` and `0x170001000`, resolved through one
module handle, are the same key: the second bind returns the first handle and
registers nothing, `wunwrap_wrapper` on that handle then finds the map empty,
calls `FreeLibrary` and frees the `module_node`, and a later bind of the
second function no longer returns a handle. -/
theorem wwrap_low_bits_collision :
    wwrap_resolve exEnvFar 0x10010 0x10020 = some (0x70000000, 0x70001000)
      ∧ wwrap_resolve exEnvFar 0x10010 0x10040 = some (0x70000000, 0x170001000)
      ∧ (0x70001000 : Nat) ≠ 0x170001000
      ∧ wwrap_wrapper exEnvFar (exAllocs 0x18000) State.init 0x10010 0x10020 3 2 0x10100
          = Outcome.ok 0x8000 exBound
      ∧ wwrap_wrapper exEnvFar (exAllocs 0x18100) exBound 0x10010 0x10040 3 1 0x10200
          = Outcome.ok 0x8000 exBound
      ∧ exBound.function_nodes.read 0x18100 = none
      ∧ wunwrap_wrapper exEnvFar exBound 0x8000 = Outcome.ok 0 exUnbound
      ∧ exUnbound.unloaded = [0]
      ∧ exUnbound.module_nodes.read 0x500000 = none
      ∧ wwrap_wrapper exEnvFar (exAllocs 0x18200) exUnbound 0x10010 0x10040 3 1 0x10200
          = Outcome.undefined (Fault.invalid_pointer 0x500000) := by
  decide

/-- C7 as amended: from any reachable state, bind `f1` and then `f2` of the
same module (both handles non-zero, the allocator returning blocks that are
not live, the two addresses different in their low 32 bits, which is how the
registry compares keys).  The second bind reuses the module entry of the
first, the registry holds one entry for the module, with both bindings;
`wunwrap_wrapper` on the first handle returns 0, calls `FreeLibrary` on
nothing, keeps `g_modules` and the node of `f2` as they were, and a later bind
of `f2` returns the second handle again, unchanged state. -/
theorem wunwrap_wrapper_keeps_sibling (env : Env) (a1 a2 a3 : Allocs) (s0 s1 s2 : State)
    (module1 function1 return_code1 n1 va_args1 : Nat)
    (module2 function2 return_code2 n2 va_args2 : Nat)
    (module3 function3 return_code3 n3 va_args3 : Nat)
    (base f1 f2 h1 h2 : Nat)
    (hreach : Reachable env s0)
    (hfresh1 : s0.function_nodes.read a1.node = none)
    (hfresh2 : s1.function_nodes.read a2.node = none)
    (hres1 : wwrap_resolve env module1 function1 = some (base, f1))
    (hres2 : wwrap_resolve env module2 function2 = some (base, f2))
    (hdist : wwrap_equal f1 f2 = false)
    (hbind1 : wwrap_wrapper env a1 s0 module1 function1 return_code1 n1 va_args1
      = Outcome.ok h1 s1) (hh1 : h1 ≠ 0)
    (hbind2 : wwrap_wrapper env a2 s1 module2 function2 return_code2 n2 va_args2
      = Outcome.ok h2 s2) (hh2 : h2 ≠ 0)
    (hval3 : wwrap_validate env module3 function3 va_args3 = true)
    (hres3 : wwrap_resolve env module3 function3 = some (base, f2)) :
    s1.module_entry base ≠ 0
      ∧ s2.module_entry base = s1.module_entry base
      ∧ s2.module_entries base = 1
      ∧ addr_native_to_app env (s2.binding base f1) = h1
      ∧ addr_native_to_app env (s2.binding base f2) = h2
      ∧ ∃ s3, wunwrap_wrapper env s2 h1 = Outcome.ok 0 s3
          ∧ s3.unloaded = s2.unloaded
          ∧ s3.g_modules = s2.g_modules
          ∧ s3.module_entry base = s2.module_entry base
          ∧ s3.binding base f2 = s2.binding base f2
          ∧ s3.function_nodes.read (s2.binding base f2)
              = s2.function_nodes.read (s2.binding base f2)
          ∧ s3.function_nodes.read (s2.binding base f2) ≠ none
          ∧ wwrap_wrapper env a3 s3 module3 function3 return_code3 n3 va_args3
              = Outcome.ok h2 s3 := by
  have hinv : s0.inv := reachable_inv env s0 hreach
  obtain ⟨m1, mn1, F1, hm1, hentry1, _, hread1, hF1, hfound1, hhandle1, hwf1, hlink1, _, _⟩ :=
    wwrap_wrapper_ok env a1 s0 s1 module1 function1 return_code1 n1 va_args1 base f1 h1 hinv.1
      hres1 hbind1 hh1
  obtain ⟨m2, mn2, F2, hm2, hentry2, hcount2, hread2, hF2, hfound2, hhandle2, hwf2, hlink2,
      hunl2, hkeep⟩ :=
    wwrap_wrapper_ok env a2 s1 s2 module2 function2 return_code2 n2 va_args2 base f2 h2 hwf1
      hres2 hbind2 hh2
  have hl2 : s2.linked := hlink2 (hlink1 hinv.2 hfresh1) hfresh2
  have he1 : s1.module_entry base ≠ 0 := by rw [hentry1]; exact hm1
  obtain ⟨hmm, hsame⟩ := hkeep he1
  have hm21 : m2 = m1 := by rw [hmm, hentry1]
  have hfo1 : s1.functions_of m2 = some F1 := by
    simp only [State.functions_of, hm21, hread1, hF1]
  have hdist2 : wwrap_equal f2 f1 = false := by rw [wwrap_equal_symm]; exact hdist
  have hfind1 : bh_hash_map_find F2 f1 = bh_hash_map_find F1 f1 := hsame F1 hfo1 f1 hdist2
  have hfo2 : s2.functions_of (s2.module_entry base) = some F2 := by
    simp only [State.functions_of, hentry2, hread2, hF2]
  have hb1 : s2.binding base f1 = bh_hash_map_find F1 f1 := by
    simp only [State.binding, hfo2, hfind1]
  have hb2 : s2.binding base f2 = bh_hash_map_find F2 f2 := by
    simp only [State.binding, hfo2]
  -- the two nodes, live and linked
  have hfound1b : bh_hash_map_find F2 f1 ≠ 0 := by rw [hfind1]; exact hfound1
  obtain ⟨k1, hmem1, hk1⟩ := mem_of_find F2 f1 hfound1b
  obtain ⟨fn1, hfn1, hfn1m, hfn1f⟩ := hl2 m2 mn2 F2 k1 _ hread2 hF2 hmem1
  obtain ⟨k2, hmem2, hk2⟩ := mem_of_find F2 f2 hfound2
  obtain ⟨fn2, hfn2, hfn2m, hfn2f⟩ := hl2 m2 mn2 F2 k2 _ hread2 hF2 hmem2
  have hfn1f1 : wwrap_equal fn1.func f1 = true := wwrap_equal_trans _ _ _ hfn1f hk1
  have hfn2f2 : wwrap_equal fn2.func f2 = true := wwrap_equal_trans _ _ _ hfn2f hk2
  have hfn1f2 : wwrap_equal fn1.func f2 = false :=
    wwrap_equal_trans_false _ _ _ hfn1f1 hdist
  have hnodes : bh_hash_map_find F2 f1 ≠ bh_hash_map_find F2 f2 := by
    intro he
    rw [he, hfn2] at hfn1
    cases hfn1
    rw [hfn2f2] at hfn1f2
    cases hfn1f2
  -- the unbind
  have hrt := addr_round_trip env (bh_hash_map_find F2 f1) h1 (by rw [hfind1]; exact hhandle1)
    hh1
  have hfind3 : bh_hash_map_find (bh_hash_map_remove F2 fn1.func) f2 = bh_hash_map_find F2 f2 :=
    find_remove_other F2 fn1.func f2 hfn1f2
  have hcount3 : bh_hash_map_get_count (bh_hash_map_remove F2 fn1.func) ≠ 0 :=
    count_ne_zero_of_find _ f2 (by rw [hfind3]; exact hfound2)
  have hmn2 : s2.module_nodes.read fn1.m_node = some mn2 := by rw [hfn1m]; exact hread2
  have hun := wunwrap_wrapper_not_last env s2 h1 _ fn1 mn2 F2 hrt.1 hrt.2 hfn1 hmn2 hF2 hcount3
  refine ⟨he1, by rw [hentry2, hm21, hentry1], hcount2, by rw [hb1]; exact hhandle1,
    by rw [hb2]; exact hhandle2, _, hun, rfl, rfl, rfl, ?_, ?_, ?_, ?_⟩
  · rw [hb2]
    simp only [State.binding, State.functions_of, State.module_entry] at hentry2 ⊢
    simp only [hentry2, hfn1m, heap_read_write_self]
    exact hfind3
  · rw [hb2]
    exact heap_read_release_other _ _ _ hnodes
  · rw [hb2]
    simp only
    rw [heap_read_release_other _ _ _ hnodes, hfn2]
    exact Option.some_ne_none _
  · rw [wwrap_wrapper_eq_registry env a3 _ module3 function3 return_code3 n3 va_args3 base f2
      hval3 hres3]
    have hentry3 : State.module_entry
        { s2 with
          module_nodes := s2.module_nodes.write fn1.m_node
            { mn2 with functions := some (bh_hash_map_remove F2 fn1.func) }
          function_nodes := s2.function_nodes.release (bh_hash_map_find F2 f1) } base = m2 := by
      simpa [State.module_entry] using hentry2
    have hread3 : Heap.read
        (State.module_nodes
          { s2 with
            module_nodes := s2.module_nodes.write fn1.m_node
              { mn2 with functions := some (bh_hash_map_remove F2 fn1.func) }
            function_nodes := s2.function_nodes.release (bh_hash_map_find F2 f1) }) m2
          = some { mn2 with functions := some (bh_hash_map_remove F2 fn1.func) } := by
      simp only [hfn1m, heap_read_write_self]
    simp only [wwrap_registry,
      wwrap_modules_found a3 _ base m2 _ (bh_hash_map_remove F2 fn1.func) hentry3 hm2 hread3 rfl]
    rw [wwrap_node_found env a3 _ env.mem_end m2 f2 return_code3 n3 va_args3 _ _
      (by rw [hfind3]; exact hfound2), hfind3, hhandle2]

theorem wunwrap_wrapper_keeps_sibling_witness :
    wwrap_wrapper exEnv (exAllocs 0x18000) State.init 0x10010 0x10020 3 2 0x10100
        = Outcome.ok 0x8000 exBound
      ∧ wwrap_wrapper exEnv (exAllocs 0x18100) exBound 0x10010 0x10030 3 1 0x10200
        = Outcome.ok 0x8100 exBoundTwo
      ∧ exBound.module_entry 0x70000000 ≠ 0
      ∧ exBoundTwo.module_entry 0x70000000 = exBound.module_entry 0x70000000
      ∧ exBoundTwo.module_entries 0x70000000 = 1
      ∧ addr_native_to_app exEnv (exBoundTwo.binding 0x70000000 0x70001000) = 0x8000
      ∧ addr_native_to_app exEnv (exBoundTwo.binding 0x70000000 0x70002000) = 0x8100
      ∧ ∃ s3, wunwrap_wrapper exEnv exBoundTwo 0x8000 = Outcome.ok 0 s3
          ∧ s3.unloaded = exBoundTwo.unloaded
          ∧ s3.g_modules = exBoundTwo.g_modules
          ∧ s3.module_entry 0x70000000 = exBoundTwo.module_entry 0x70000000
          ∧ s3.binding 0x70000000 0x70002000 = exBoundTwo.binding 0x70000000 0x70002000
          ∧ s3.function_nodes.read (exBoundTwo.binding 0x70000000 0x70002000)
              = exBoundTwo.function_nodes.read (exBoundTwo.binding 0x70000000 0x70002000)
          ∧ s3.function_nodes.read (exBoundTwo.binding 0x70000000 0x70002000) ≠ none
          ∧ wwrap_wrapper exEnv (exAllocs 0x18200) s3 0x10010 0x10030 3 1 0x10200
              = Outcome.ok 0x8100 s3 :=
  ⟨by decide, by decide,
   wunwrap_wrapper_keeps_sibling exEnv (exAllocs 0x18000) (exAllocs 0x18100) (exAllocs 0x18200)
    State.init exBound exBoundTwo 0x10010 0x10020 3 2 0x10100 0x10010 0x10030 3 1 0x10200
    0x10010 0x10030 3 1 0x10200 0x70000000 0x70001000 0x70002000 0x8000 0x8100
    (Reachable.init) (by decide) (by decide) (by decide) (by decide) (by decide) (by decide)
    (by decide) (by decide) (by decide) (by decide) (by decide)⟩

end OsCallWrapper
